import Mathlib

/-!
Shallow embedding of the validation engine of the Data-Alchemist repository
(`lib/validators.ts`, class `DataValidator`), together with the JavaScript
string/number primitives it uses (`JSON.parse`, `parseInt`, `split`, `trim`,
`toLowerCase`, `includes`).  Entity numeric fields are modelled as `Int`
(the spec declares them integers); JSON numbers are modelled as exact
canonical decimals (IEEE floats are approximated by `Dec`, which is faithful
on the decimal data this system carries).  The nondeterministic `id` salt of a
finding (`Date.now()`/`Math.random()`) carries no semantic content and is
omitted from the `Finding` record.
-/

namespace DataAlchemist

/-- JavaScript-style whitespace test (ASCII subset used by `trim`,
`parseInt` and the JSON grammar). -/
def isJsWs (c : Char) : Bool :=
  c = ' ' || c = '\t' || c = '\n' || c = '\r'

/-- Decimal digit run converted to a natural number. -/
def digitsToNat (ds : List Char) : Nat :=
  ds.foldl (fun n c => n * 10 + (c.toNat - 48)) 0

/-- Hexadecimal digit value. -/
def hexVal (c : Char) : Option Nat :=
  if c.isDigit then some (c.toNat - 48)
  else if 'a' ≤ c && c ≤ 'f' then some (c.toNat - 87)
  else if 'A' ≤ c && c ≤ 'F' then some (c.toNat - 55)
  else none

def isHexDigit (c : Char) : Bool := (hexVal c).isSome

/-- Hexadecimal digit run converted to a natural number. -/
def hexToNat (ds : List Char) : Nat :=
  ds.foldl (fun n c => n * 16 + ((hexVal c).getD 0)) 0

/-- Unsigned part of JavaScript `parseInt` (radix unspecified): an optional
`0x`/`0X` prefix selects hexadecimal, otherwise decimal; reads the longest
digit run and ignores trailing characters; `none` models `NaN`. -/
def jsParseUInt (cs : List Char) : Option Nat :=
  match cs with
  | '0' :: c :: rest =>
    if c = 'x' || c = 'X' then
      let ds := rest.takeWhile isHexDigit
      if ds.isEmpty then none else some (hexToNat ds)
    else
      let ds := ('0' :: c :: rest).takeWhile Char.isDigit
      if ds.isEmpty then none else some (digitsToNat ds)
  | _ =>
    let ds := cs.takeWhile Char.isDigit
    if ds.isEmpty then none else some (digitsToNat ds)

/-- JavaScript `parseInt(s)` (no radix argument): skip leading whitespace,
optional sign, then `jsParseUInt`; `none` models `NaN`. -/
def jsParseInt (s : String) : Option Int :=
  match s.toList.dropWhile isJsWs with
  | '-' :: rest => (jsParseUInt rest).map (fun n => -(n : Int))
  | '+' :: rest => (jsParseUInt rest).map (fun n => (n : Int))
  | rest => (jsParseUInt rest).map (fun n => (n : Int))

/-- Boolean list-prefix test on characters. -/
def isPrefixB : List Char → List Char → Bool
  | [], _ => true
  | _ :: _, [] => false
  | a :: as, b :: bs => a = b && isPrefixB as bs

/-- Boolean substring-occurrence test on characters. -/
def isInfixB (sub : List Char) : List Char → Bool
  | [] => sub.isEmpty
  | c :: cs => isPrefixB sub (c :: cs) || isInfixB sub cs

/-- JavaScript `s.includes(sub)`. -/
def jsIncludes (s sub : String) : Bool := isInfixB sub.toList s.toList

/-- JavaScript `s.slice(1, -1)`: drop the first and last characters. -/
def jsSliceInner (s : String) : String :=
  String.mk ((s.toList.drop 1).dropLast)

/-- ASCII lower-casing of one character (JavaScript `toLowerCase` restricted
to the ASCII data this system carries). -/
def lowerChar (c : Char) : Char :=
  if 'A' ≤ c && c ≤ 'Z' then Char.ofNat (c.toNat + 32) else c

/-- JavaScript `s.toLowerCase()`. -/
def jsToLower (s : String) : String := String.mk (s.toList.map lowerChar)

/-- JavaScript `s.trim()`: strip whitespace from both ends. -/
def jsTrim (s : String) : String :=
  String.mk (((s.toList.dropWhile isJsWs).reverse.dropWhile isJsWs).reverse)

def splitCharAux (sep : Char) : List Char → List (List Char)
  | [] => [[]]
  | c :: rest =>
    match splitCharAux sep rest with
    | [] => [[c]]
    | g :: gs => if c = sep then [] :: g :: gs else (c :: g) :: gs

/-- JavaScript `s.split(sep)` for a one-character separator (the only form
the validator uses); `"".split(sep)` is `[""]`. -/
def jsSplit (s : String) (sep : Char) : List String :=
  (splitCharAux sep s.toList).map (fun l => String.mk l)

/-- JavaScript `s.startsWith(pre)`. -/
def jsStartsWith (s pre : String) : Bool := isPrefixB pre.toList s.toList

/-- JavaScript `s.endsWith(suf)`. -/
def jsEndsWith (s suf : String) : Bool := isPrefixB suf.toList.reverse s.toList.reverse

/-- JavaScript `s.includes(c)` for a one-character needle. -/
def strContains (s : String) (c : Char) : Bool := s.toList.contains c

/-- JavaScript `array.join(sep)`. -/
def joinStrs (sep : String) : List String → String
  | [] => ""
  | [x] => x
  | x :: y :: xs => x ++ sep ++ joinStrs sep (y :: xs)

/-! ## JavaScript numbers

The validator never does arithmetic on the numbers inside JSON payloads: it
only tests them for positivity, uses them as `Map` keys and prints them.  A
JSON number is therefore modelled as an exact decimal in canonical form
`m * 10 ^ e` with `10 ∤ m` (and `e = 0` when `m = 0`), which makes decimal
value equality structural. -/

structure Dec where
  m : Int
  e : Int
  deriving DecidableEq, Repr

/-- Strip factors of ten from the mantissa (fuel-bounded loop). -/
def stripTens : Nat → Int → Int → Int × Int
  | 0, m, e => (m, e)
  | fuel + 1, m, e =>
    if m % 10 = 0 then stripTens fuel (m / 10) (e + 1) else (m, e)

/-- Canonical decimal from mantissa and exponent. -/
def mkDec (m e : Int) : Dec :=
  if m = 0 then ⟨0, 0⟩
  else
    let p := stripTens m.natAbs m e
    ⟨p.1, p.2⟩

def intToDec (n : Int) : Dec := mkDec n 0

/-- Positivity of a decimal (`x > 0` in JS). -/
def decPos (d : Dec) : Bool := 0 < d.m

/-- JS-style rendering of a number in a template string; integral values
print exactly, non-integral values (never produced by the data the claims
concern) use an approximate scientific rendering. -/
def decToString (d : Dec) : String :=
  if 0 ≤ d.e then toString (d.m * 10 ^ d.e.toNat)
  else toString d.m ++ "e" ++ toString d.e

/-- Test for the regular expression `/^\d+$/`. -/
def isAllDigits (s : String) : Bool :=
  !s.toList.isEmpty && s.toList.all Char.isDigit

/-- Shallow model of a JavaScript JSON value (`JSON.parse` result).
Numbers are exact canonical decimals. -/
inductive Json where
  | null : Json
  | bool (b : Bool) : Json
  | num (d : Dec) : Json
  | str (s : String) : Json
  | arr (xs : List Json) : Json
  | obj (fields : List (String × Json)) : Json

/-- Parse the JSON number grammar `-?(0|[1-9][0-9]*)(\.[0-9]+)?([eE][+-]?[0-9]+)?`
from the head of the input, returning the value and the rest. -/
def parseJsonNum (cs : List Char) : Option (Dec × List Char) :=
  let (sign, cs1) : Int × List Char :=
    match cs with
    | '-' :: rest => (-1, rest)
    | _ => (1, cs)
  match cs1 with
  | [] => none
  | c :: _ =>
    if !c.isDigit then none else
    let (intDs, cs2) : List Char × List Char :=
      if c = '0' then (['0'], cs1.drop 1)
      else (cs1.takeWhile Char.isDigit, cs1.dropWhile Char.isDigit)
    let (fracDs, cs3) : List Char × List Char :=
      match cs2 with
      | '.' :: rest =>
        let ds := rest.takeWhile Char.isDigit
        (ds, rest.dropWhile Char.isDigit)
      | _ => ([], cs2)
    if (match cs2 with | '.' :: _ => fracDs.isEmpty | _ => false) then none else
    let expPart : Option (Int × List Char) :=
      match cs3 with
      | 'e' :: rest | 'E' :: rest =>
        let (esign, rest2) : Int × List Char :=
          match rest with
          | '-' :: r => (-1, r)
          | '+' :: r => (1, r)
          | _ => (1, rest)
        let ds := rest2.takeWhile Char.isDigit
        if ds.isEmpty then none
        else some (esign * (digitsToNat ds : Int), rest2.dropWhile Char.isDigit)
      | _ => some (0, cs3)
    match expPart with
    | none => none
    | some (e, cs4) =>
      let mantissa : Int := sign * (digitsToNat (intDs ++ fracDs) : Int)
      some (mkDec mantissa (e - (fracDs.length : Int)), cs4)

/-- Parse the body of a JSON string (after the opening quote), handling the
escape sequences of the JSON grammar; rejects raw control characters. -/
def parseJsonStrBody : Nat → List Char → Option (List Char × List Char)
  | 0, _ => none
  | _ + 1, [] => none
  | fuel + 1, c :: rest =>
    if c = '"' then some ([], rest)
    else if c = '\\' then
      match rest with
      | [] => none
      | e :: rest2 =>
        let simpleEsc : Option Char :=
          if e = '"' then some '"'
          else if e = '\\' then some '\\'
          else if e = '/' then some '/'
          else if e = 'b' then some (Char.ofNat 8)
          else if e = 'f' then some (Char.ofNat 12)
          else if e = 'n' then some '\n'
          else if e = 'r' then some '\r'
          else if e = 't' then some '\t'
          else none
        match simpleEsc with
        | some d =>
          match parseJsonStrBody fuel rest2 with
          | some (body, rem) => some (d :: body, rem)
          | none => none
        | none =>
          if e = 'u' then
            match rest2 with
            | h1 :: h2 :: h3 :: h4 :: rest3 =>
              if isHexDigit h1 && isHexDigit h2 && isHexDigit h3 && isHexDigit h4 then
                match parseJsonStrBody fuel rest3 with
                | some (body, rem) =>
                  some (Char.ofNat (hexToNat [h1, h2, h3, h4]) :: body, rem)
                | none => none
              else none
            | _ => none
          else none
    else if c.toNat < 32 then none
    else
      match parseJsonStrBody fuel rest with
      | some (body, rem) => some (c :: body, rem)
      | none => none

mutual

/-- Parse one JSON value from the head of the input (no leading-whitespace
skip; callers skip). -/
def parseJsonVal : Nat → List Char → Option (Json × List Char)
  | 0, _ => none
  | _ + 1, [] => none
  | fuel + 1, c :: rest =>
    if c = 'n' then
      if isPrefixB ['u', 'l', 'l'] rest then some (Json.null, rest.drop 3) else none
    else if c = 't' then
      if isPrefixB ['r', 'u', 'e'] rest then some (Json.bool true, rest.drop 3) else none
    else if c = 'f' then
      if isPrefixB ['a', 'l', 's', 'e'] rest then some (Json.bool false, rest.drop 4) else none
    else if c = '"' then
      match parseJsonStrBody (fuel + 1) rest with
      | some (body, rem) => some (Json.str (String.mk body), rem)
      | none => none
    else if c = '[' then
      match (rest.dropWhile isJsWs) with
      | ']' :: rem => some (Json.arr [], rem)
      | cs => match parseJsonElems fuel cs with
        | some (xs, rem) => some (Json.arr xs, rem)
        | none => none
    else if c = '{' then
      match (rest.dropWhile isJsWs) with
      | '}' :: rem => some (Json.obj [], rem)
      | cs => match parseJsonMembers fuel cs with
        | some (fs, rem) => some (Json.obj fs, rem)
        | none => none
    else
      match parseJsonNum (c :: rest) with
      | some (q, rem) => some (Json.num q, rem)
      | none => none

/-- Parse a nonempty comma-separated JSON array element list up to and
including the closing bracket. -/
def parseJsonElems : Nat → List Char → Option (List Json × List Char)
  | 0, _ => none
  | fuel + 1, cs =>
    match parseJsonVal fuel cs with
    | none => none
    | some (v, rem) =>
      match rem.dropWhile isJsWs with
      | ']' :: rem2 => some ([v], rem2)
      | ',' :: rem2 =>
        match parseJsonElems fuel (rem2.dropWhile isJsWs) with
        | some (vs, rem3) => some (v :: vs, rem3)
        | none => none
      | _ => none

/-- Parse a nonempty JSON object member list up to and including the closing
brace. -/
def parseJsonMembers : Nat → List Char → Option (List (String × Json) × List Char)
  | 0, _ => none
  | fuel + 1, cs =>
    match cs with
    | '"' :: cs1 =>
      match parseJsonStrBody (fuel + 1) cs1 with
      | none => none
      | some (key, rem) =>
        match rem.dropWhile isJsWs with
        | ':' :: rem2 =>
          match parseJsonVal fuel (rem2.dropWhile isJsWs) with
          | none => none
          | some (v, rem3) =>
            match rem3.dropWhile isJsWs with
            | '}' :: rem4 => some ([(String.mk key, v)], rem4)
            | ',' :: rem4 =>
              match parseJsonMembers fuel (rem4.dropWhile isJsWs) with
              | some (fs, rem5) => some ((String.mk key, v) :: fs, rem5)
              | none => none
            | _ => none
        | _ => none
    | _ => none

end

/-- Model of JavaScript `JSON.parse`: parse one value surrounded by optional
whitespace; `none` models a thrown `SyntaxError`. -/
def jsonParse (s : String) : Option Json :=
  match parseJsonVal (4 * s.length + 8) (s.toList.dropWhile isJsWs) with
  | some (v, rest) => if (rest.dropWhile isJsWs).isEmpty then some v else none
  | none => none

/-! ## Entity types (`lib/types.ts`) -/

structure Client where
  ClientID : String
  ClientName : String
  PriorityLevel : Int
  RequestedTaskIDs : String
  GroupTag : String
  AttributesJSON : String
  deriving DecidableEq, Repr

structure Worker where
  WorkerID : String
  WorkerName : String
  Skills : String
  AvailableSlots : String
  MaxLoadPerPhase : Int
  WorkerGroup : String
  QualificationLevel : Int
  deriving DecidableEq, Repr

structure Task where
  TaskID : String
  TaskName : String
  Category : String
  Duration : Int
  RequiredSkills : String
  PreferredPhases : String
  MaxConcurrent : Int
  deriving DecidableEq, Repr

inductive Severity where
  | error : Severity
  | warning : Severity
  deriving DecidableEq, Repr

inductive EntityKind where
  | client : EntityKind
  | worker : EntityKind
  | task : EntityKind
  deriving DecidableEq, Repr

/-- Model of `ValidationError` (a finding); the nondeterministic `id` salt is
omitted as semantically insignificant. `row` is an `Int` so that the `-1`
"not row-specific" sentinel is representable. -/
structure Finding where
  entity : EntityKind
  field : String
  row : Int
  message : String
  severity : Severity
  deriving DecidableEq, Repr

/-- Model of `addError` (severity defaults to `error` at call sites). -/
def mkF (entity : EntityKind) (field : String) (row : Int) (message : String)
    (severity : Severity) : Finding :=
  ⟨entity, field, row, message, severity⟩

/-! ## Insertion-ordered map (JavaScript `Map`): `set` keeps the original
insertion position of an existing key, `forEach` iterates in insertion
order. -/

def amSet {κ β : Type} [DecidableEq κ] (m : List (κ × β)) (k : κ) (v : β) :
    List (κ × β) :=
  match m with
  | [] => [(k, v)]
  | (k2, v2) :: rest => if k2 = k then (k, v) :: rest else (k2, v2) :: amSet rest k v

def amGet {κ β : Type} [DecidableEq κ] (m : List (κ × β)) (k : κ) : Option β :=
  match m with
  | [] => none
  | (k2, v2) :: rest => if k2 = k then some v2 else amGet rest k

/-! ## Client validator (`validateClients`) -/

/-- AttributesJSON check of `validateClients`: `JSON.parse` in a `try`; the
`catch` distinguishes strings containing `{` or `[` (error) from plain text
(warning). -/
def attrCheck (i : Nat) (c : Client) : List Finding :=
  if c.AttributesJSON ≠ "" && jsTrim c.AttributesJSON ≠ "" then
    match jsonParse c.AttributesJSON with
    | some _ => []
    | none =>
      if jsIncludes c.AttributesJSON "\x7b" || jsIncludes c.AttributesJSON "[" then
        [mkF .client "AttributesJSON" i
          "Invalid JSON format - contains JSON characters but is malformed" .error]
      else
        [mkF .client "AttributesJSON" i
          "Non-JSON text detected - should be converted to valid JSON format" .warning]
  else []

/-- Findings produced for one client row: duplicate-ID check against the
`seen` set, priority range, unknown requested task IDs, AttributesJSON. -/
def clientRow (taskIds : List String) (seen : List String) (i : Nat) (c : Client) :
    List Finding :=
  (if seen.contains c.ClientID then
    [mkF .client "ClientID" i ("Duplicate ClientID: " ++ c.ClientID) .error] else [])
  ++ (if c.PriorityLevel < 1 || c.PriorityLevel > 5 then
    [mkF .client "PriorityLevel" i "Priority level must be between 1 and 5" .error] else [])
  ++ (if c.RequestedTaskIDs ≠ "" then
    ((jsSplit c.RequestedTaskIDs ',').map jsTrim).flatMap (fun taskId =>
      if taskId ≠ "" && !taskIds.contains taskId then
        [mkF .client "RequestedTaskIDs" i ("Unknown task ID: " ++ taskId) .error]
      else [])
    else [])
  ++ attrCheck i c

/-- Generic model of `collection.forEach((x, index) => ...)` with a running
`seen` set and the shared mutable `this.errors` accumulator: `row` produces
one row's findings from the pre-update `seen` set, `upd` adds the row's
identifier to `seen`. -/
def runRows {α : Type} (row : List String → Nat → α → List Finding)
    (upd : α → List String → List String) :
    List String → Nat → List α → List Finding → List Finding
  | _, _, [], errs => errs
  | seen, i, x :: xs, errs =>
    runRows row upd (upd x seen) (i + 1) xs (errs ++ row seen i x)

/-- Model of `validateClients`, threading the `this.errors` accumulator. -/
def validateClients (clients : List Client) (tasks : List Task)
    (errs : List Finding) : List Finding :=
  runRows (clientRow (tasks.map Task.TaskID)) (fun c seen => c.ClientID :: seen)
    [] 0 clients errs

/-! ## Worker validator (`validateWorkers`) -/

/-- Positivity test `typeof slot === 'number' && slot > 0` on a JSON value. -/
def isPosNum : Json → Bool
  | .num d => decPos d
  | _ => false

/-- AvailableSlots check of `validateWorkers`: `JSON.parse` in a `try`; on
success the value must be an array of positive numbers, then an overload
warning may fire; the `catch` distinguishes comma-bearing strings (warning)
from others (error). -/
def slotsCheck (i : Nat) (w : Worker) : List Finding :=
  if w.AvailableSlots ≠ "" && jsTrim w.AvailableSlots ≠ "" then
    match jsonParse w.AvailableSlots with
    | some v =>
      match v with
      | .arr slots =>
        if !slots.all isPosNum then
          [mkF .worker "AvailableSlots" i
            "AvailableSlots must contain only positive numbers" .error]
        else if (slots.length : Int) > w.MaxLoadPerPhase then
          [mkF .worker "MaxLoadPerPhase" i
            "Worker has more available slots than max load per phase" .warning]
        else []
      | _ =>
        [mkF .worker "AvailableSlots" i "AvailableSlots must be an array format" .error]
    | none =>
      if strContains w.AvailableSlots ',' then
        [mkF .worker "AvailableSlots" i
          "Comma-separated slots detected - should be JSON array format like [1,2,3]" .warning]
      else
        [mkF .worker "AvailableSlots" i
          "Invalid AvailableSlots format - must be valid JSON array like [1,2,3]" .error]
  else []

/-- Findings produced for one worker row. -/
def workerRow (seen : List String) (i : Nat) (w : Worker) : List Finding :=
  (if seen.contains w.WorkerID then
    [mkF .worker "WorkerID" i ("Duplicate WorkerID: " ++ w.WorkerID) .error] else [])
  ++ slotsCheck i w
  ++ (if w.MaxLoadPerPhase < 1 then
    [mkF .worker "MaxLoadPerPhase" i "MaxLoadPerPhase must be at least 1" .error] else [])
  ++ (if w.QualificationLevel < 1 || w.QualificationLevel > 10 then
    [mkF .worker "QualificationLevel" i
      "QualificationLevel should be between 1 and 10" .warning] else [])

/-- Model of `validateWorkers`. -/
def validateWorkers (workers : List Worker) (errs : List Finding) : List Finding :=
  runRows workerRow (fun w seen => w.WorkerID :: seen) [] 0 workers errs

/-! ## Task validator (`validateTasks`) -/

/-- Rendering of a JS number that may be `NaN` in a template string. -/
def numOrNaN : Option Int → String
  | some n => toString n
  | none => "NaN"

/-- JavaScript `array.join(', ')` on integers. -/
def joinInts (ns : List Int) : String :=
  String.intercalate ", " (ns.map toString)

/-- PreferredPhases check of `validateTasks`: ordered decision tree over
bracketed range, bracketed JSON array, unbracketed range, comma list, single
integer.  The source wraps the body in a `try` whose only throwing call
(`JSON.parse`) sits inside an inner `try`, so the outer `catch` is
unreachable and not modelled. -/
def phasesCheck (i : Nat) (t : Task) : List Finding :=
  if t.PreferredPhases ≠ "" && jsTrim t.PreferredPhases ≠ "" then
    let phases := jsTrim t.PreferredPhases
    if jsStartsWith phases "[" && jsEndsWith phases "]" then
      let innerContent := jsTrim (jsSliceInner phases)
      if strContains innerContent '-' then
        let parts := (jsSplit innerContent '-').map jsTrim
        if parts.length = 2 then
          let s := jsParseInt (parts.getD 0 "")
          let e := jsParseInt (parts.getD 1 "")
          match s, e with
          | some a, some b =>
            if 0 < a && 0 < b && a ≤ b then []
            else
              [mkF .task "PreferredPhases" i
                ("Invalid range values in brackets: [" ++ numOrNaN s ++ " - " ++ numOrNaN e
                  ++ "]. Both values must be positive and start ≤ end") .error]
          | _, _ =>
            [mkF .task "PreferredPhases" i
              ("Invalid range values in brackets: [" ++ numOrNaN s ++ " - " ++ numOrNaN e
                ++ "]. Both values must be positive and start ≤ end") .error]
        else
          [mkF .task "PreferredPhases" i
            ("Invalid bracket range format: " ++ phases ++ ". Use format [1-3] or [2 - 4]")
            .error]
      else
        match jsonParse phases with
        | some (.arr ps) =>
          if ps.all isPosNum then []
          else
            [mkF .task "PreferredPhases" i
              "PreferredPhases array must contain positive numbers" .error]
        | some _ =>
          [mkF .task "PreferredPhases" i
            "PreferredPhases must be an array when using bracket notation" .error]
        | none =>
          [mkF .task "PreferredPhases" i
            ("Invalid array format in brackets: " ++ phases) .error]
    else if strContains phases '-' && !strContains phases '[' && !strContains phases ']' then
      let parts := (jsSplit phases '-').map jsTrim
      if parts.length = 2 then
        match jsParseInt (parts.getD 0 ""), jsParseInt (parts.getD 1 "") with
        | some a, some b =>
          if 0 < a && 0 < b && a ≤ b then []
          else
            [mkF .task "PreferredPhases" i
              ("Invalid phase range: " ++ phases ++ ". Expected format: \"1-3\"") .error]
        | _, _ =>
          [mkF .task "PreferredPhases" i
            ("Invalid phase range: " ++ phases ++ ". Expected format: \"1-3\"") .error]
      else
        [mkF .task "PreferredPhases" i
          ("Invalid phase range format: " ++ phases ++ ". Use format \"1-3\"") .error]
    else if strContains phases ',' then
      let nums := (jsSplit phases ',').map (fun p => jsParseInt (jsTrim p))
      if nums.all (fun n => match n with | some v => 0 < v | none => false) then
        [mkF .task "PreferredPhases" i
          ("Comma-separated phases detected: " ++ phases
            ++ ". Consider using array format [" ++ joinInts (nums.reduceOption) ++ "]")
          .warning]
      else
        [mkF .task "PreferredPhases" i "All phases must be positive numbers" .error]
    else if isAllDigits phases then
      match jsParseInt phases with
      | some v =>
        if 0 < v then
          [mkF .task "PreferredPhases" i
            ("Single phase detected: " ++ phases
              ++ ". Consider using array format [" ++ toString v ++ "]") .warning]
        else
          [mkF .task "PreferredPhases" i ("Invalid phase number: " ++ phases) .error]
      | none =>
        [mkF .task "PreferredPhases" i ("Invalid phase number: " ++ phases) .error]
    else
      [mkF .task "PreferredPhases" i
        ("Unrecognized PreferredPhases format: " ++ phases
          ++ ". Use formats like: \"1-3\", \"[1-3]\", \"[1, 2, 3]\", or \"2\"") .error]
  else []

/-- Case-insensitive union of all worker skill tokens, built once per run. -/
def workerSkillsUnion (workers : List Worker) : List String :=
  workers.flatMap (fun w =>
    if w.Skills ≠ "" then (jsSplit w.Skills ',').map (fun s => jsToLower (jsTrim s)) else [])

/-- RequiredSkills check of `validateTasks`: each trimmed lower-cased token
absent from the worker skill union yields a warning. -/
def reqSkillsCheck (skills : List String) (i : Nat) (t : Task) : List Finding :=
  if t.RequiredSkills ≠ "" then
    ((jsSplit t.RequiredSkills ',').map (fun s => jsToLower (jsTrim s))).flatMap (fun skill =>
      if skill ≠ "" && !skills.contains skill then
        [mkF .task "RequiredSkills" i ("No worker has required skill: " ++ skill) .warning]
      else [])
  else []

/-- Findings produced for one task row. -/
def taskRow (skills : List String) (seen : List String) (i : Nat) (t : Task) :
    List Finding :=
  (if seen.contains t.TaskID then
    [mkF .task "TaskID" i ("Duplicate TaskID: " ++ t.TaskID) .error] else [])
  ++ (if t.Duration < 1 then
    [mkF .task "Duration" i "Duration must be at least 1" .error] else [])
  ++ (if t.MaxConcurrent < 1 then
    [mkF .task "MaxConcurrent" i "MaxConcurrent must be at least 1" .error] else [])
  ++ reqSkillsCheck skills i t
  ++ phasesCheck i t

/-- Model of `validateTasks`. -/
def validateTasks (tasks : List Task) (workers : List Worker)
    (errs : List Finding) : List Finding :=
  runRows (taskRow (workerSkillsUnion workers)) (fun t seen => t.TaskID :: seen)
    [] 0 tasks errs

/-! ## Cross-reference validator (`validateCrossReferences`) -/

/-- Skill-coverage findings for one task row: a warning per trimmed required
skill that is not a case-insensitive substring of any worker's skill
string. -/
def skillCovRow (workers : List Worker) (i : Nat) (t : Task) : List Finding :=
  if t.RequiredSkills ≠ "" then
    ((jsSplit t.RequiredSkills ',').map jsTrim).flatMap (fun skill =>
      if skill ≠ "" then
        if workers.any (fun w => w.Skills ≠ "" && jsIncludes (jsToLower w.Skills) (jsToLower skill))
        then []
        else [mkF .task "RequiredSkills" i
          ("No worker available with skill: " ++ skill) .warning]
      else [])
  else []

def skillCoverageAux (workers : List Worker) : Nat → List Task → List Finding
  | _, [] => []
  | i, t :: ts => skillCovRow workers i t ++ skillCoverageAux workers (i + 1) ts

/-- All skill-coverage findings of `validateCrossReferences`. -/
def skillCoverage (workers : List Worker) (tasks : List Task) : List Finding :=
  skillCoverageAux workers 0 tasks

/-- Inclusive integer range `start..end` of the `for` loop (empty when
`a > b`). -/
def rangeInts (a b : Int) : List Int :=
  if a ≤ b then (List.range (b - a + 1).toNat).map (fun k => a + k) else []

/-- Per-phase worker capacity map of `validatePhaseSlotSaturation`: each
worker whose `AvailableSlots` JSON-parses to an array adds `MaxLoadPerPhase`
to every positive numeric element. -/
def phaseCapacity (workers : List Worker) : List (Dec × Int) :=
  workers.foldl (fun m w =>
    if w.AvailableSlots ≠ "" then
      match jsonParse w.AvailableSlots with
      | some (.arr slots) =>
        slots.foldl (fun m2 j =>
          match j with
          | .num d => if decPos d then amSet m2 d ((amGet m2 d).getD 0 + w.MaxLoadPerPhase) else m2
          | _ => m2) m
      | some _ => m
      | none => m
    else m) []

/-- Demand-side phase list of `validatePhaseSlotSaturation` for one task.
The branch order differs from `phasesCheck`: a dash anywhere selects the
plain-range branch even for bracketed strings. -/
def satPhases (t : Task) : List Dec :=
  let phases := jsTrim t.PreferredPhases
  if strContains phases '-' then
    let parts := (jsSplit phases '-').map (fun n => jsParseInt (jsTrim n))
    match parts.getD 0 none, parts.getD 1 none with
    | some a, some b => (rangeInts a b).map intToDec
    | _, _ => []
  else if jsStartsWith phases "[" && jsEndsWith phases "]" then
    match jsonParse phases with
    | some (.arr ps) =>
      ps.filterMap (fun j => match j with
        | .num d => if decPos d then some d else none
        | _ => none)
    | some _ => []
    | none => []
  else if strContains phases ',' then
    ((jsSplit phases ',').map (fun p => jsParseInt (jsTrim p))).filterMap (fun o =>
      match o with
      | some v => if 0 < v then some (intToDec v) else none
      | none => none)
  else if isAllDigits phases then
    match jsParseInt phases with
    | some v => if 0 < v then [intToDec v] else []
    | none => []
  else []

/-- Per-phase task demand map: each task with nonempty `PreferredPhases` and
`Duration > 0` adds its full `Duration` to every phase of `satPhases`. -/
def phaseDemand (tasks : List Task) : List (Dec × Int) :=
  tasks.foldl (fun m t =>
    if t.PreferredPhases ≠ "" && t.Duration > 0 then
      (satPhases t).foldl (fun m2 q => amSet m2 q ((amGet m2 q).getD 0 + t.Duration)) m
    else m) []

/-- Template literal of the oversaturation warning. -/
def satMessage (p : Dec) (d c : Int) : String :=
  "Phase " ++ decToString p ++ " is oversaturated: demand (" ++ toString d
    ++ ") exceeds capacity (" ++ toString c ++ ")"

/-- Oversaturation findings: one not-row-specific warning per demand-map
entry whose demand exceeds capacity, in demand-map insertion order. -/
def satFindings (workers : List Worker) (tasks : List Task) : List Finding :=
  (phaseDemand tasks).flatMap (fun e =>
    let cap := (amGet (phaseCapacity workers) e.1).getD 0
    if e.2 > cap then
      [⟨.task, "PreferredPhases", -1, satMessage e.1 e.2 cap, .warning⟩]
    else [])

/-- Model of `validatePhaseSlotSaturation`. -/
def validatePhaseSlotSaturation (workers : List Worker) (tasks : List Task)
    (errs : List Finding) : List Finding :=
  errs ++ satFindings workers tasks

/-- Task-relation map of `detectCircularDependencies`: for every client
requesting two or more (trimmed, nonempty) task IDs, each listed ID maps to
the other listed IDs, accumulated across clients. -/
def taskRelations (clients : List Client) : List (String × List String) :=
  clients.foldl (fun m c =>
    if c.RequestedTaskIDs ≠ "" then
      let requested :=
        ((jsSplit c.RequestedTaskIDs ',').map jsTrim).filter (fun id => id ≠ "")
      if requested.length > 1 then
        requested.foldl (fun m2 tid =>
          amSet m2 tid ((amGet m2 tid).getD [] ++ requested.filter (fun id => id ≠ tid))) m
      else m
    else m) []

/-- Circular-dependency findings: for every relation entry `(tid, rel)` and
every element `r` of `rel` whose own relation list contains `tid`, one
warning. -/
def circFindings (clients : List Client) : List Finding :=
  let rels := taskRelations clients
  rels.flatMap (fun e =>
    e.2.flatMap (fun r =>
      if ((amGet rels r).getD []).contains e.1 then
        [⟨.task, "RequestedTaskIDs", -1,
          "Potential circular dependency detected between " ++ e.1 ++ " and " ++ r,
          .warning⟩]
      else []))

/-- Model of `detectCircularDependencies`. -/
def detectCircularDependencies (clients : List Client) (errs : List Finding) :
    List Finding :=
  errs ++ circFindings clients

/-- Model of `validateCrossReferences`: skill coverage, then saturation, then
circular detection, all appending to the shared accumulator. -/
def validateCrossReferences (clients : List Client) (workers : List Worker)
    (tasks : List Task) (errs : List Finding) : List Finding :=
  detectCircularDependencies clients
    (validatePhaseSlotSaturation workers tasks (errs ++ skillCoverage workers tasks))

/-- Model of `validateAll`: resets the accumulator, then runs the four
validators in order. -/
def validateAll (clients : List Client) (workers : List Worker) (tasks : List Task) :
    List Finding :=
  validateCrossReferences clients workers tasks
    (validateTasks tasks workers (validateWorkers workers (validateClients clients tasks [])))

/-! ## Exception-transparent mirror

The definitions above inline every `catch` as a `match` on the `Option`
result of `jsonParse`.  To settle whether the validator can throw, the
following mirror makes exceptions explicit: `jsonParseE` throws
(`Except.error`) exactly where `JSON.parse` throws, `tryCatchE` is
`try`/`catch`, and each function is re-stated with the source's `try`
blocks in place — including the task validator's outer `try`, whose `catch`
(`"Error parsing PreferredPhases: ..."`) is part of the source. -/

def jsonParseE (s : String) : Except String Json :=
  match jsonParse s with
  | some v => .ok v
  | none => .error "SyntaxError"

def tryCatchE {α : Type} (body : Except String α) (handler : String → Except String α) :
    Except String α :=
  match body with
  | .ok a => .ok a
  | .error e => handler e

def attrCheckE (i : Nat) (c : Client) : Except String (List Finding) :=
  if c.AttributesJSON ≠ "" && jsTrim c.AttributesJSON ≠ "" then
    tryCatchE
      (match jsonParseE c.AttributesJSON with
        | .ok _ => .ok []
        | .error e => .error e)
      (fun _ => .ok (
        if jsIncludes c.AttributesJSON "\x7b" || jsIncludes c.AttributesJSON "[" then
          [mkF .client "AttributesJSON" i
            "Invalid JSON format - contains JSON characters but is malformed" .error]
        else
          [mkF .client "AttributesJSON" i
            "Non-JSON text detected - should be converted to valid JSON format" .warning]))
  else .ok []

def clientRowE (taskIds seen : List String) (i : Nat) (c : Client) :
    Except String (List Finding) :=
  match attrCheckE i c with
  | .error e => .error e
  | .ok af => .ok (
    (if seen.contains c.ClientID then
      [mkF .client "ClientID" i ("Duplicate ClientID: " ++ c.ClientID) .error] else [])
    ++ (if c.PriorityLevel < 1 || c.PriorityLevel > 5 then
      [mkF .client "PriorityLevel" i "Priority level must be between 1 and 5" .error] else [])
    ++ (if c.RequestedTaskIDs ≠ "" then
      ((jsSplit c.RequestedTaskIDs ',').map jsTrim).flatMap (fun taskId =>
        if taskId ≠ "" && !taskIds.contains taskId then
          [mkF .client "RequestedTaskIDs" i ("Unknown task ID: " ++ taskId) .error]
        else [])
      else [])
    ++ af)

def slotsCheckE (i : Nat) (w : Worker) : Except String (List Finding) :=
  if w.AvailableSlots ≠ "" && jsTrim w.AvailableSlots ≠ "" then
    tryCatchE
      (match jsonParseE w.AvailableSlots with
        | .error e => .error e
        | .ok v => .ok (
          match v with
          | .arr slots =>
            if !slots.all isPosNum then
              [mkF .worker "AvailableSlots" i
                "AvailableSlots must contain only positive numbers" .error]
            else if (slots.length : Int) > w.MaxLoadPerPhase then
              [mkF .worker "MaxLoadPerPhase" i
                "Worker has more available slots than max load per phase" .warning]
            else []
          | _ =>
            [mkF .worker "AvailableSlots" i "AvailableSlots must be an array format" .error]))
      (fun _ => .ok (
        if strContains w.AvailableSlots ',' then
          [mkF .worker "AvailableSlots" i
            "Comma-separated slots detected - should be JSON array format like [1,2,3]" .warning]
        else
          [mkF .worker "AvailableSlots" i
            "Invalid AvailableSlots format - must be valid JSON array like [1,2,3]" .error]))
  else .ok []

def workerRowE (seen : List String) (i : Nat) (w : Worker) : Except String (List Finding) :=
  match slotsCheckE i w with
  | .error e => .error e
  | .ok sf => .ok (
    (if seen.contains w.WorkerID then
      [mkF .worker "WorkerID" i ("Duplicate WorkerID: " ++ w.WorkerID) .error] else [])
    ++ sf
    ++ (if w.MaxLoadPerPhase < 1 then
      [mkF .worker "MaxLoadPerPhase" i "MaxLoadPerPhase must be at least 1" .error] else [])
    ++ (if w.QualificationLevel < 1 || w.QualificationLevel > 10 then
      [mkF .worker "QualificationLevel" i
        "QualificationLevel should be between 1 and 10" .warning] else []))

def phasesCheckE (i : Nat) (t : Task) : Except String (List Finding) :=
  if t.PreferredPhases ≠ "" && jsTrim t.PreferredPhases ≠ "" then
    let phases := jsTrim t.PreferredPhases
    tryCatchE
      (if jsStartsWith phases "[" && jsEndsWith phases "]" then
        let innerContent := jsTrim (jsSliceInner phases)
        if strContains innerContent '-' then
          .ok (
            let parts := (jsSplit innerContent '-').map jsTrim
            if parts.length = 2 then
              let s := jsParseInt (parts.getD 0 "")
              let e := jsParseInt (parts.getD 1 "")
              match s, e with
              | some a, some b =>
                if 0 < a && 0 < b && a ≤ b then []
                else
                  [mkF .task "PreferredPhases" i
                    ("Invalid range values in brackets: [" ++ numOrNaN s ++ " - " ++ numOrNaN e
                      ++ "]. Both values must be positive and start ≤ end") .error]
              | _, _ =>
                [mkF .task "PreferredPhases" i
                  ("Invalid range values in brackets: [" ++ numOrNaN s ++ " - " ++ numOrNaN e
                    ++ "]. Both values must be positive and start ≤ end") .error]
            else
              [mkF .task "PreferredPhases" i
                ("Invalid bracket range format: " ++ phases ++ ". Use format [1-3] or [2 - 4]")
                .error])
        else
          tryCatchE
            (match jsonParseE phases with
              | .error e => .error e
              | .ok parsed => .ok (
                match parsed with
                | .arr ps =>
                  if ps.all isPosNum then []
                  else
                    [mkF .task "PreferredPhases" i
                      "PreferredPhases array must contain positive numbers" .error]
                | _ =>
                  [mkF .task "PreferredPhases" i
                    "PreferredPhases must be an array when using bracket notation" .error]))
            (fun _ => .ok
              [mkF .task "PreferredPhases" i
                ("Invalid array format in brackets: " ++ phases) .error])
      else if strContains phases '-' && !strContains phases '[' && !strContains phases ']' then
        .ok (
          let parts := (jsSplit phases '-').map jsTrim
          if parts.length = 2 then
            match jsParseInt (parts.getD 0 ""), jsParseInt (parts.getD 1 "") with
            | some a, some b =>
              if 0 < a && 0 < b && a ≤ b then []
              else
                [mkF .task "PreferredPhases" i
                  ("Invalid phase range: " ++ phases ++ ". Expected format: \"1-3\"") .error]
            | _, _ =>
              [mkF .task "PreferredPhases" i
                ("Invalid phase range: " ++ phases ++ ". Expected format: \"1-3\"") .error]
          else
            [mkF .task "PreferredPhases" i
              ("Invalid phase range format: " ++ phases ++ ". Use format \"1-3\"") .error])
      else if strContains phases ',' then
        .ok (
          let nums := (jsSplit phases ',').map (fun p => jsParseInt (jsTrim p))
          if nums.all (fun n => match n with | some v => 0 < v | none => false) then
            [mkF .task "PreferredPhases" i
              ("Comma-separated phases detected: " ++ phases
                ++ ". Consider using array format [" ++ joinInts (nums.reduceOption) ++ "]")
              .warning]
          else
            [mkF .task "PreferredPhases" i "All phases must be positive numbers" .error])
      else if isAllDigits phases then
        .ok (
          match jsParseInt phases with
          | some v =>
            if 0 < v then
              [mkF .task "PreferredPhases" i
                ("Single phase detected: " ++ phases
                  ++ ". Consider using array format [" ++ toString v ++ "]") .warning]
            else
              [mkF .task "PreferredPhases" i ("Invalid phase number: " ++ phases) .error]
          | none =>
            [mkF .task "PreferredPhases" i ("Invalid phase number: " ++ phases) .error])
      else
        .ok
          [mkF .task "PreferredPhases" i
            ("Unrecognized PreferredPhases format: " ++ phases
              ++ ". Use formats like: \"1-3\", \"[1-3]\", \"[1, 2, 3]\", or \"2\"") .error])
      (fun _ => .ok
        [mkF .task "PreferredPhases" i
          ("Error parsing PreferredPhases: " ++ t.PreferredPhases) .error])
  else .ok []

def taskRowE (skills seen : List String) (i : Nat) (t : Task) :
    Except String (List Finding) :=
  match phasesCheckE i t with
  | .error e => .error e
  | .ok pf => .ok (
    (if seen.contains t.TaskID then
      [mkF .task "TaskID" i ("Duplicate TaskID: " ++ t.TaskID) .error] else [])
    ++ (if t.Duration < 1 then
      [mkF .task "Duration" i "Duration must be at least 1" .error] else [])
    ++ (if t.MaxConcurrent < 1 then
      [mkF .task "MaxConcurrent" i "MaxConcurrent must be at least 1" .error] else [])
    ++ reqSkillsCheck skills i t
    ++ pf)

def runRowsE {α : Type} (rowE : List String → Nat → α → Except String (List Finding))
    (upd : α → List String → List String) :
    List String → Nat → List α → List Finding → Except String (List Finding)
  | _, _, [], errs => .ok errs
  | seen, i, x :: xs, errs =>
    match rowE seen i x with
    | .ok fs => runRowsE rowE upd (upd x seen) (i + 1) xs (errs ++ fs)
    | .error e => .error e

def foldlE {β α : Type} (f : β → α → Except String β) : β → List α → Except String β
  | b, [] => .ok b
  | b, x :: xs =>
    match f b x with
    | .ok b2 => foldlE f b2 xs
    | .error e => .error e

def capStepE (m : List (Dec × Int)) (w : Worker) : Except String (List (Dec × Int)) :=
  if w.AvailableSlots ≠ "" then
    tryCatchE
      (match jsonParseE w.AvailableSlots with
        | .error e => .error e
        | .ok v => .ok (
          match v with
          | .arr slots =>
            slots.foldl (fun m2 j =>
              match j with
              | .num d =>
                if decPos d then amSet m2 d ((amGet m2 d).getD 0 + w.MaxLoadPerPhase) else m2
              | _ => m2) m
          | _ => m))
      (fun _ => .ok m)
  else .ok m

def satPhasesE (t : Task) : Except String (List Dec) :=
  let phases := jsTrim t.PreferredPhases
  if strContains phases '-' then
    .ok (
      let parts := (jsSplit phases '-').map (fun n => jsParseInt (jsTrim n))
      match parts.getD 0 none, parts.getD 1 none with
      | some a, some b => (rangeInts a b).map intToDec
      | _, _ => [])
  else if jsStartsWith phases "[" && jsEndsWith phases "]" then
    match jsonParseE phases with
    | .error e => .error e
    | .ok v => .ok (
      match v with
      | .arr ps =>
        ps.filterMap (fun j => match j with
          | .num d => if decPos d then some d else none
          | _ => none)
      | _ => [])
  else if strContains phases ',' then
    .ok (((jsSplit phases ',').map (fun p => jsParseInt (jsTrim p))).filterMap (fun o =>
      match o with
      | some v => if 0 < v then some (intToDec v) else none
      | none => none))
  else if isAllDigits phases then
    .ok (
      match jsParseInt phases with
      | some v => if 0 < v then [intToDec v] else []
      | none => [])
  else .ok []

def demandStepE (m : List (Dec × Int)) (t : Task) : Except String (List (Dec × Int)) :=
  if t.PreferredPhases ≠ "" && t.Duration > 0 then
    tryCatchE
      (match satPhasesE t with
        | .error e => .error e
        | .ok ph =>
          .ok (ph.foldl (fun m2 q => amSet m2 q ((amGet m2 q).getD 0 + t.Duration)) m))
      (fun _ => .ok m)
  else .ok m

def satFindingsE (workers : List Worker) (tasks : List Task) :
    Except String (List Finding) :=
  match foldlE capStepE [] workers with
  | .error e => .error e
  | .ok cap =>
    match foldlE demandStepE [] tasks with
    | .error e => .error e
    | .ok dem =>
      .ok (dem.flatMap (fun e =>
        let c := (amGet cap e.1).getD 0
        if e.2 > c then
          [⟨.task, "PreferredPhases", -1, satMessage e.1 e.2 c, .warning⟩]
        else []))

/-- Exception-transparent `validateAll`: every `try`/`catch` of the source
is a `tryCatchE`, every `JSON.parse` a `jsonParseE`. -/
def validateAllE (clients : List Client) (workers : List Worker) (tasks : List Task) :
    Except String (List Finding) :=
  match runRowsE (clientRowE (tasks.map Task.TaskID)) (fun c seen => c.ClientID :: seen)
      [] 0 clients [] with
  | .error e => .error e
  | .ok e1 =>
    match runRowsE workerRowE (fun w seen => w.WorkerID :: seen) [] 0 workers e1 with
    | .error e => .error e
    | .ok e2 =>
      match runRowsE (taskRowE (workerSkillsUnion workers)) (fun t seen => t.TaskID :: seen)
          [] 0 tasks e2 with
      | .error e => .error e
      | .ok e3 =>
        match satFindingsE workers tasks with
        | .error e => .error e
        | .ok sat => .ok (((e3 ++ skillCoverage workers tasks) ++ sat) ++ circFindings clients)

/-! ## Generic lemmas about the row-fold -/

/-- The `seen` state reached after processing a prefix of rows. -/
def stateAt {α : Type} (upd : α → List String → List String) (seen : List String)
    (l : List α) : List String :=
  l.foldl (fun s x => upd x s) seen

theorem runRows_append {α : Type} (row : List String → Nat → α → List Finding)
    (upd : α → List String → List String) (seen : List String) (i : Nat)
    (xs : List α) (errs : List Finding) :
    runRows row upd seen i xs errs = errs ++ runRows row upd seen i xs [] := by
  induction xs generalizing seen i errs with
  | nil => simp [runRows]
  | cons x xs ih =>
    rw [runRows, runRows]
    rw [ih (upd x seen) (i + 1) (errs ++ row seen i x),
        ih (upd x seen) (i + 1) ([] ++ row seen i x)]
    simp

theorem runRows_cons {α : Type} (row : List String → Nat → α → List Finding)
    (upd : α → List String → List String) (seen : List String) (i : Nat)
    (x : α) (xs : List α) :
    runRows row upd seen i (x :: xs) [] =
      row seen i x ++ runRows row upd (upd x seen) (i + 1) xs [] := by
  rw [runRows, runRows_append]
  simp

theorem runRows_mem {α : Type} {row : List String → Nat → α → List Finding}
    {upd : α → List String → List String} {seen : List String} {i0 : Nat}
    {xs : List α} {f : Finding} (hf : f ∈ runRows row upd seen i0 xs []) :
    ∃ s2 j x, i0 ≤ j ∧ f ∈ row s2 j x := by
  induction xs generalizing seen i0 with
  | nil => simp [runRows] at hf
  | cons x xs ih =>
    rw [runRows_cons] at hf
    rcases List.mem_append.mp hf with h | h
    · exact ⟨seen, i0, x, le_refl _, h⟩
    · obtain ⟨s2, j, y, hj, hy⟩ := ih h
      exact ⟨s2, j, y, by omega, hy⟩

theorem runRows_filter_at {α : Type} (row : List String → Nat → α → List Finding)
    (upd : α → List String → List String) (q : Finding → Bool)
    (h2 : ∀ seen j x, ∀ f ∈ row seen j x, f.row = (j : Int))
    (seen : List String) (i0 : Nat) (xs : List α) (i : Nat) (h : i < xs.length) :
    (runRows row upd seen i0 xs []).filter
        (fun f => q f && decide (f.row = ((i0 + i : Nat) : Int))) =
      (row (stateAt upd seen (xs.take i)) (i0 + i) (xs.get ⟨i, h⟩)).filter
        (fun f => q f && decide (f.row = ((i0 + i : Nat) : Int))) := by
  induction xs generalizing seen i0 i with
  | nil => exact absurd h (by simp)
  | cons x xs ih =>
    rw [runRows_cons, List.filter_append]
    cases i with
    | zero =>
      have hrest : (runRows row upd (upd x seen) (i0 + 1) xs []).filter
          (fun f => q f && decide (f.row = ((i0 + 0 : Nat) : Int))) = [] := by
        rw [List.filter_eq_nil_iff]
        intro f hf
        obtain ⟨s2, j, y, hj, hy⟩ := runRows_mem hf
        have hr := h2 s2 j y f hy
        simp only [Bool.and_eq_true, decide_eq_true_eq, not_and]
        intro _ hcast
        rw [hr] at hcast
        have : j = i0 + 0 := by exact_mod_cast hcast
        omega
      rw [hrest]
      simp [stateAt]
    | succ k =>
      have hhead : (row seen i0 x).filter
          (fun f => q f && decide (f.row = ((i0 + (k + 1) : Nat) : Int))) = [] := by
        rw [List.filter_eq_nil_iff]
        intro f hf
        have hr := h2 seen i0 x f hf
        simp only [Bool.and_eq_true, decide_eq_true_eq, not_and]
        intro _ hcast
        rw [hr] at hcast
        have : i0 = i0 + (k + 1) := by exact_mod_cast hcast
        omega
      rw [hhead]
      have harith : i0 + 1 + k = i0 + (k + 1) := by omega
      have hik : k < xs.length := by simpa using h
      have := ih (upd x seen) (i0 + 1) k hik
      rw [harith] at this
      rw [List.nil_append, this]
      simp [stateAt]

/-! ## Shape lemmas: every finding of each component carries its producing
row index, entity kind and one of the component's field names. -/

theorem attrCheck_shape (i : Nat) (c : Client) :
    ∀ f ∈ attrCheck i c,
      f.entity = .client ∧ f.row = (i : Int) ∧ f.field = "AttributesJSON" := by
  intro f hf
  unfold attrCheck at hf
  repeat' split at hf
  all_goals simp_all [mkF]

theorem clientRow_shape (tids seen : List String) (i : Nat) (c : Client) :
    ∀ f ∈ clientRow tids seen i c,
      f.entity = .client ∧ f.row = (i : Int) ∧
        (f.field = "ClientID" ∨ f.field = "PriorityLevel" ∨
          f.field = "RequestedTaskIDs" ∨ f.field = "AttributesJSON") := by
  intro f hf
  unfold clientRow at hf
  rcases List.mem_append.mp hf with hf1 | hf1
  · rcases List.mem_append.mp hf1 with hf2 | hf2
    · rcases List.mem_append.mp hf2 with hf3 | hf3
      · split at hf3 <;> simp_all [mkF]
      · split at hf3 <;> simp_all [mkF]
    · split at hf2
      · obtain ⟨tid, _, hff⟩ := List.mem_flatMap.mp hf2
        split at hff <;> simp_all [mkF]
      · simp_all
  · obtain ⟨he, hr, hfield⟩ := attrCheck_shape i c f hf1
    exact ⟨he, hr, Or.inr (Or.inr (Or.inr hfield))⟩

theorem slotsCheck_shape (i : Nat) (w : Worker) :
    ∀ f ∈ slotsCheck i w,
      f.entity = .worker ∧ f.row = (i : Int) ∧
        (f.field = "AvailableSlots" ∨ f.field = "MaxLoadPerPhase") := by
  intro f hf
  unfold slotsCheck at hf
  repeat' split at hf
  all_goals simp_all [mkF]

theorem workerRow_shape (seen : List String) (i : Nat) (w : Worker) :
    ∀ f ∈ workerRow seen i w,
      f.entity = .worker ∧ f.row = (i : Int) ∧
        (f.field = "WorkerID" ∨ f.field = "AvailableSlots" ∨
          f.field = "MaxLoadPerPhase" ∨ f.field = "QualificationLevel") := by
  intro f hf
  unfold workerRow at hf
  rcases List.mem_append.mp hf with hf1 | hf1
  · rcases List.mem_append.mp hf1 with hf2 | hf2
    · rcases List.mem_append.mp hf2 with hf3 | hf3
      · split at hf3 <;> simp_all [mkF]
      · obtain ⟨he, hr, hfield⟩ := slotsCheck_shape i w f hf3
        exact ⟨he, hr, by tauto⟩
    · split at hf2 <;> simp_all [mkF]
  · split at hf1 <;> simp_all [mkF]

theorem phasesCheck_shape (i : Nat) (t : Task) :
    ∀ f ∈ phasesCheck i t,
      f.entity = .task ∧ f.row = (i : Int) ∧ f.field = "PreferredPhases" := by
  intro f hf
  simp only [phasesCheck] at hf
  repeat' split at hf
  all_goals simp_all [mkF]

theorem reqSkillsCheck_shape (skills : List String) (i : Nat) (t : Task) :
    ∀ f ∈ reqSkillsCheck skills i t,
      f.entity = .task ∧ f.row = (i : Int) ∧ f.field = "RequiredSkills" ∧
        f.severity = .warning := by
  intro f hf
  unfold reqSkillsCheck at hf
  split at hf
  · obtain ⟨sk, _, hff⟩ := List.mem_flatMap.mp hf
    split at hff <;> simp_all [mkF]
  · simp_all

theorem taskRow_shape (skills seen : List String) (i : Nat) (t : Task) :
    ∀ f ∈ taskRow skills seen i t,
      f.entity = .task ∧ f.row = (i : Int) ∧
        (f.field = "TaskID" ∨ f.field = "Duration" ∨ f.field = "MaxConcurrent" ∨
          f.field = "RequiredSkills" ∨ f.field = "PreferredPhases") := by
  intro f hf
  unfold taskRow at hf
  rcases List.mem_append.mp hf with hf1 | hf1
  · rcases List.mem_append.mp hf1 with hf2 | hf2
    · rcases List.mem_append.mp hf2 with hf3 | hf3
      · rcases List.mem_append.mp hf3 with hf4 | hf4
        · split at hf4 <;> simp_all [mkF]
        · split at hf4 <;> simp_all [mkF]
      · split at hf3 <;> simp_all [mkF]
    · obtain ⟨he, hr, hfield, _⟩ := reqSkillsCheck_shape skills i t f hf2
      exact ⟨he, hr, by tauto⟩
  · obtain ⟨he, hr, hfield⟩ := phasesCheck_shape i t f hf1
    exact ⟨he, hr, by tauto⟩

theorem skillCovRow_shape (ws : List Worker) (i : Nat) (t : Task) :
    ∀ f ∈ skillCovRow ws i t,
      f.entity = .task ∧ f.row = (i : Int) ∧ f.field = "RequiredSkills" ∧
        f.severity = .warning := by
  intro f hf
  unfold skillCovRow at hf
  split at hf
  · obtain ⟨sk, _, hff⟩ := List.mem_flatMap.mp hf
    repeat' split at hff
    all_goals simp_all [mkF]
  · simp_all

theorem skillCoverageAux_shape (ws : List Worker) (i0 : Nat) (ts : List Task) :
    ∀ f ∈ skillCoverageAux ws i0 ts,
      f.entity = .task ∧ (∃ j : Nat, i0 ≤ j ∧ f.row = (j : Int)) ∧
        f.field = "RequiredSkills" ∧ f.severity = .warning := by
  induction ts generalizing i0 with
  | nil => simp [skillCoverageAux]
  | cons t ts ih =>
    intro f hf
    rw [skillCoverageAux] at hf
    rcases List.mem_append.mp hf with h | h
    · obtain ⟨he, hr, hfield, hs⟩ := skillCovRow_shape ws i0 t f h
      exact ⟨he, ⟨i0, le_refl _, hr⟩, hfield, hs⟩
    · obtain ⟨he, ⟨j, hj, hr⟩, hfield, hs⟩ := ih (i0 + 1) f h
      exact ⟨he, ⟨j, by omega, hr⟩, hfield, hs⟩

theorem satFindings_shape (ws : List Worker) (ts : List Task) :
    ∀ f ∈ satFindings ws ts,
      f.entity = .task ∧ f.row = -1 ∧ f.field = "PreferredPhases" ∧
        f.severity = .warning := by
  intro f hf
  simp only [satFindings, List.mem_flatMap] at hf
  obtain ⟨e, _, hff⟩ := hf
  split at hff <;> simp_all

theorem circFindings_shape (cs : List Client) :
    ∀ f ∈ circFindings cs,
      f.entity = .task ∧ f.row = -1 ∧ f.field = "RequestedTaskIDs" ∧
        f.severity = .warning := by
  intro f hf
  simp only [circFindings, List.mem_flatMap] at hf
  obtain ⟨e, _, r, _, hff2⟩ := hf
  split at hff2 <;> simp_all

/-! ## Decomposition of `validateAll` into its six segments -/

theorem validateWorkers_append (ws : List Worker) (errs : List Finding) :
    validateWorkers ws errs = errs ++ validateWorkers ws [] :=
  runRows_append _ _ _ _ _ _

theorem validateTasks_append (ts : List Task) (ws : List Worker) (errs : List Finding) :
    validateTasks ts ws errs = errs ++ validateTasks ts ws [] :=
  runRows_append _ _ _ _ _ _

theorem validateAll_decomp (cs : List Client) (ws : List Worker) (ts : List Task) :
    validateAll cs ws ts =
      validateClients cs ts [] ++ validateWorkers ws [] ++ validateTasks ts ws []
        ++ skillCoverage ws ts ++ satFindings ws ts ++ circFindings cs := by
  unfold validateAll validateCrossReferences detectCircularDependencies
    validatePhaseSlotSaturation
  rw [validateTasks_append, validateWorkers_append]

/-! ## Segment membership lemmas -/

theorem validateClients_mem (cs : List Client) (ts : List Task) (f : Finding)
    (hf : f ∈ validateClients cs ts []) :
    f.entity = .client ∧ (∃ j : Nat, f.row = (j : Int)) ∧
      (f.field = "ClientID" ∨ f.field = "PriorityLevel" ∨
        f.field = "RequestedTaskIDs" ∨ f.field = "AttributesJSON") := by
  obtain ⟨s2, j, x, _, hx⟩ := runRows_mem hf
  obtain ⟨he, hr, hfield⟩ := clientRow_shape _ s2 j x f hx
  exact ⟨he, ⟨j, hr⟩, hfield⟩

theorem validateWorkers_mem (ws : List Worker) (f : Finding)
    (hf : f ∈ validateWorkers ws []) :
    f.entity = .worker ∧ (∃ j : Nat, f.row = (j : Int)) ∧
      (f.field = "WorkerID" ∨ f.field = "AvailableSlots" ∨
        f.field = "MaxLoadPerPhase" ∨ f.field = "QualificationLevel") := by
  obtain ⟨s2, j, x, _, hx⟩ := runRows_mem hf
  obtain ⟨he, hr, hfield⟩ := workerRow_shape s2 j x f hx
  exact ⟨he, ⟨j, hr⟩, hfield⟩

theorem validateTasks_mem (ts : List Task) (ws : List Worker) (f : Finding)
    (hf : f ∈ validateTasks ts ws []) :
    f.entity = .task ∧ (∃ j : Nat, f.row = (j : Int)) ∧
      (f.field = "TaskID" ∨ f.field = "Duration" ∨ f.field = "MaxConcurrent" ∨
        f.field = "RequiredSkills" ∨ f.field = "PreferredPhases") := by
  obtain ⟨s2, j, x, _, hx⟩ := runRows_mem hf
  obtain ⟨he, hr, hfield⟩ := taskRow_shape _ s2 j x f hx
  exact ⟨he, ⟨j, hr⟩, hfield⟩

/-! ## Lemmas about the insertion-ordered map -/

theorem amGet_amSet {κ β : Type} [DecidableEq κ] (m : List (κ × β)) (k k2 : κ) (v : β) :
    amGet (amSet m k v) k2 = if k2 = k then some v else amGet m k2 := by
  induction m with
  | nil =>
    rcases eq_or_ne k2 k with h | h
    · simp [amSet, amGet, h]
    · simp [amSet, amGet, h, Ne.symm h]
  | cons e rest ih =>
    rw [amSet]
    by_cases h1 : e.1 = k
    · rw [if_pos h1]
      rcases eq_or_ne k2 k with h2 | h2
      · simp [amGet, h2]
      · have h3 : ¬ k = k2 := Ne.symm h2
        have h4 : ¬ e.1 = k2 := by rw [h1]; exact h3
        simp [amGet, h3, h2, h4]
    · rw [if_neg h1]
      simp only [amGet]
      rcases eq_or_ne e.1 k2 with h2 | h2
      · have hk2 : ¬ k2 = k := fun hh => h1 (h2.trans hh)
        simp [h2, hk2]
      · simp [h2, ih]

theorem amGet_mem {κ β : Type} [DecidableEq κ] {m : List (κ × β)} {k : κ} {v : β}
    (h : amGet m k = some v) : (k, v) ∈ m := by
  induction m with
  | nil => simp [amGet] at h
  | cons e rest ih =>
    rw [amGet] at h
    split at h
    · rename_i he
      have hev : e = (k, v) := by
        obtain ⟨e1, e2⟩ := e
        simp only at he
        simp only [Option.some.injEq] at h
        rw [he, h]
      rw [← hev]
      exact List.mem_cons_self _ _
    · exact List.mem_cons_of_mem _ (ih h)

theorem amSet_mem {κ β : Type} [DecidableEq κ] {m : List (κ × β)} {k : κ} {v : β}
    {e : κ × β} (h : e ∈ amSet m k v) : e = (k, v) ∨ e ∈ m := by
  induction m with
  | nil => simpa [amSet] using h
  | cons e2 rest ih =>
    rw [amSet] at h
    split at h
    · rcases List.mem_cons.mp h with h1 | h1
      · exact Or.inl h1
      · exact Or.inr (List.mem_cons_of_mem _ h1)
    · rcases List.mem_cons.mp h with h1 | h1
      · exact Or.inr (h1 ▸ List.mem_cons_self _ _)
      · rcases ih h1 with h2 | h2
        · exact Or.inl h2
        · exact Or.inr (List.mem_cons_of_mem _ h2)

theorem amSet_keys {κ β : Type} [DecidableEq κ] (m : List (κ × β)) (k : κ) (v : β) :
    (amSet m k v).map Prod.fst =
      if (m.map Prod.fst).contains k then m.map Prod.fst else m.map Prod.fst ++ [k] := by
  induction m with
  | nil => simp [amSet]
  | cons e rest ih =>
    rw [amSet]
    by_cases h1 : e.1 = k
    · simp [h1, List.contains_cons]
    · rw [if_neg h1]
      simp only [List.map_cons, ih, List.contains_cons]
      have hbeq : (k == e.1) = false := by simp [Ne.symm h1]
      cases hc : (List.map Prod.fst rest).contains k <;> simp [hc, hbeq]

theorem amGet_of_mem_nodup {κ β : Type} [DecidableEq κ] {m : List (κ × β)} {k : κ}
    {v : β} (hmem : (k, v) ∈ m) (hnd : (m.map Prod.fst).Nodup) :
    amGet m k = some v := by
  induction m with
  | nil => simp at hmem
  | cons e rest ih =>
    simp only [List.map_cons, List.nodup_cons] at hnd
    rcases List.mem_cons.mp hmem with h1 | h1
    · rw [← h1, amGet]
      simp
    · rw [amGet]
      have hkne : ¬ e.1 = k := by
        intro hk
        exact hnd.1 (hk ▸ (List.mem_map_of_mem Prod.fst h1))
      simp only [if_neg hkne]
      exact ih h1 hnd.2

/-- `flatMap` of an if-singleton body is a `map` over a `filter`. -/
theorem flatMap_ite_singleton {α β : Type} (l : List α) (q : α → Prop)
    [DecidablePred q] (g : α → β) :
    (l.flatMap (fun x => if q x then [g x] else [])) =
      (l.filter (fun x => decide (q x))).map g := by
  induction l with
  | nil => simp
  | cons x xs ih =>
    by_cases h : q x <;> simp [List.flatMap_cons, h, ih, List.filter_cons]

/-- Restricting the report to the not-row-specific `RequestedTaskIDs`
findings isolates exactly the circular-dependency segment. -/
theorem validateAll_filter_circ (cs : List Client) (ws : List Worker) (ts : List Task) :
    (validateAll cs ws ts).filter
        (fun f => decide (f.row = -1 ∧ f.field = "RequestedTaskIDs")) =
      circFindings cs := by
  rw [validateAll_decomp]
  simp only [List.filter_append]
  have h1 : (validateClients cs ts []).filter
      (fun f => decide (f.row = -1 ∧ f.field = "RequestedTaskIDs")) = [] := by
    rw [List.filter_eq_nil_iff]
    intro f hf
    obtain ⟨-, ⟨j, hr⟩, -⟩ := validateClients_mem cs ts f hf
    simp only [decide_eq_true_eq, not_and]
    intro h
    rw [hr] at h
    omega
  have h2 : (validateWorkers ws []).filter
      (fun f => decide (f.row = -1 ∧ f.field = "RequestedTaskIDs")) = [] := by
    rw [List.filter_eq_nil_iff]
    intro f hf
    obtain ⟨-, ⟨j, hr⟩, -⟩ := validateWorkers_mem ws f hf
    simp only [decide_eq_true_eq, not_and]
    intro h
    rw [hr] at h
    omega
  have h3 : (validateTasks ts ws []).filter
      (fun f => decide (f.row = -1 ∧ f.field = "RequestedTaskIDs")) = [] := by
    rw [List.filter_eq_nil_iff]
    intro f hf
    obtain ⟨-, ⟨j, hr⟩, -⟩ := validateTasks_mem ts ws f hf
    simp only [decide_eq_true_eq, not_and]
    intro h
    rw [hr] at h
    omega
  have h4 : (skillCoverage ws ts).filter
      (fun f => decide (f.row = -1 ∧ f.field = "RequestedTaskIDs")) = [] := by
    rw [List.filter_eq_nil_iff]
    intro f hf
    obtain ⟨-, ⟨j, -, hr⟩, -, -⟩ := skillCoverageAux_shape ws 0 ts f hf
    simp only [decide_eq_true_eq, not_and]
    intro h
    rw [hr] at h
    omega
  have h5 : (satFindings ws ts).filter
      (fun f => decide (f.row = -1 ∧ f.field = "RequestedTaskIDs")) = [] := by
    rw [List.filter_eq_nil_iff]
    intro f hf
    obtain ⟨-, -, hfield, -⟩ := satFindings_shape ws ts f hf
    simp [hfield]
  have h6 : (circFindings cs).filter
      (fun f => decide (f.row = -1 ∧ f.field = "RequestedTaskIDs")) = circFindings cs := by
    rw [List.filter_eq_self]
    intro f hf
    obtain ⟨-, hr, hfield, -⟩ := circFindings_shape cs f hf
    simp [hr, hfield]
  rw [h1, h2, h3, h4, h5, h6]
  simp

/-! ## Claims -/

/-- C9: the list returned by `validateAll` is ordered by producing
validator: all client-check findings precede all worker-check findings,
which precede all task-check findings, which precede the cross-reference
findings, and within the cross-reference segment skill-coverage findings
precede saturation findings, which precede circular-grouping findings. -/
theorem c9_segment_order (cs : List Client) (ws : List Worker) (ts : List Task) :
    validateAll cs ws ts =
      validateClients cs ts [] ++ validateWorkers ws [] ++ validateTasks ts ws []
        ++ skillCoverage ws ts ++ satFindings ws ts ++ circFindings cs :=
  validateAll_decomp cs ws ts

/-- C1 counterexample: a single client requesting `"T1,T2"` (both tasks
existing) yields two circular-dependency warnings — one per ordered pair —
not the single warning per unordered pair the claim states. -/
theorem c1_counterexample :
    (validateAll [⟨"C1", "Acme", 3, "T1,T2", "g", ""⟩] []
        [⟨"T1", "t", "c", 1, "", "", 1⟩, ⟨"T2", "t", "c", 1, "", "", 1⟩]).countP
      (fun f => decide (f.row = -1 ∧ f.field = "RequestedTaskIDs")) = 2 := by decide

/-- C1 amended: for a single client whose `RequestedTaskIDs` tokenizes to
two distinct task IDs `a`, `b`, `validateAll` emits exactly one
circular-dependency warning per ordered pair — two findings, `(a,b)` then
`(b,a)`. -/
theorem c1_amended (c : Client) (ws : List Worker) (ts : List Task) (a b : String)
    (hne : c.RequestedTaskIDs ≠ "")
    (htok : ((jsSplit c.RequestedTaskIDs ',').map jsTrim).filter (fun id => id ≠ "") = [a, b])
    (hab : a ≠ b) :
    (validateAll [c] ws ts).filter
        (fun f => decide (f.row = -1 ∧ f.field = "RequestedTaskIDs")) =
      [⟨.task, "RequestedTaskIDs", -1,
          "Potential circular dependency detected between " ++ a ++ " and " ++ b, .warning⟩,
        ⟨.task, "RequestedTaskIDs", -1,
          "Potential circular dependency detected between " ++ b ++ " and " ++ a, .warning⟩] := by
  rw [validateAll_filter_circ]
  have hrel : taskRelations [c] = [(a, [b]), (b, [a])] := by
    simp only [taskRelations, List.foldl_cons, List.foldl_nil]
    rw [if_pos hne, htok]
    rw [if_pos (by simp : ([a, b] : List String).length > 1)]
    simp [amSet, amGet, List.filter_cons, hab, Ne.symm hab]
  simp only [circFindings, hrel]
  simp [amGet, hab, Ne.symm hab]

/-- C1 amended witness at `a = "T1"`, `b = "T2"`. -/
theorem c1_amended_witness :
    (validateAll [⟨"C1", "Acme", 3, "T1,T2", "g", ""⟩] []
        [⟨"T1", "t", "c", 1, "", "", 1⟩]).filter
        (fun f => decide (f.row = -1 ∧ f.field = "RequestedTaskIDs")) =
      [⟨.task, "RequestedTaskIDs", -1,
          "Potential circular dependency detected between " ++ "T1" ++ " and " ++ "T2", .warning⟩,
        ⟨.task, "RequestedTaskIDs", -1,
          "Potential circular dependency detected between " ++ "T2" ++ " and " ++ "T1", .warning⟩] :=
  c1_amended ⟨"C1", "Acme", 3, "T1,T2", "g", ""⟩ [] [⟨"T1", "t", "c", 1, "", "", 1⟩]
    "T1" "T2" (by decide) (by decide) (by decide)

/-- C3 counterexample: the task validator accepts `"[2-4]"` (no finding),
yet in the saturation analysis a task with `PreferredPhases = "[2-4]"` and
`Duration = 5` contributes nothing to any phase demand — the demand map is
empty and no saturation warning can arise, contradicting the claimed
contribution of 5 to phases 2, 3 and 4. -/
theorem c3_counterexample :
    phasesCheck 0 ⟨"T1", "t", "c", 5, "", "[2-4]", 1⟩ = [] ∧
    phaseDemand [⟨"T1", "t", "c", 5, "", "[2-4]", 1⟩] = [] ∧
    satFindings [] [⟨"T1", "t", "c", 5, "", "[2-4]", 1⟩] = [] := by decide

/-- Looking up a key after the inner demand fold adds the key's occurrence
count times the increment. -/
theorem demand_inner_fold (l : List Dec) (m : List (Dec × Int)) (d : Int) (p : Dec) :
    (amGet (l.foldl (fun m2 q => amSet m2 q ((amGet m2 q).getD 0 + d)) m) p).getD 0 =
      (amGet m p).getD 0 + (l.count p : Int) * d := by
  induction l generalizing m with
  | nil => simp
  | cons q l ih =>
    rw [List.foldl_cons, ih, amGet_amSet]
    rcases eq_or_ne p q with h | h
    · subst h
      simp [List.count_cons]
      ring
    · simp [h, List.count_cons]

/-- The demand-map lookup is the sum over all contributing tasks of the
occurrence count of the phase in that task's parsed phase list times the
task's duration. -/
theorem phaseDemand_lookup (ts : List Task) (p : Dec) :
    (amGet (phaseDemand ts) p).getD 0 =
      (ts.map (fun t => if t.PreferredPhases ≠ "" && t.Duration > 0 then
        ((satPhases t).count p : Int) * t.Duration else 0)).sum := by
  suffices h : ∀ m : List (Dec × Int),
      (amGet (ts.foldl (fun m t =>
          if t.PreferredPhases ≠ "" && t.Duration > 0 then
            (satPhases t).foldl (fun m2 q => amSet m2 q ((amGet m2 q).getD 0 + t.Duration)) m
          else m) m) p).getD 0 =
        (amGet m p).getD 0 +
          (ts.map (fun t => if t.PreferredPhases ≠ "" && t.Duration > 0 then
            ((satPhases t).count p : Int) * t.Duration else 0)).sum by
    simpa [phaseDemand, amGet] using h []
  induction ts with
  | nil => simp
  | cons t ts ih =>
    intro m
    rw [List.foldl_cons, ih, List.map_cons, List.sum_cons]
    by_cases hc : t.PreferredPhases ≠ "" && t.Duration > 0
    · rw [if_pos hc, if_pos hc, demand_inner_fold]
      ring
    · rw [if_neg hc, if_neg hc]
      ring

/-- C3 amended: in the saturation analysis, a task contributes its Duration
to `demand[p]` once per occurrence of `p` in the phase list produced by the
saturation analysis's own parser (`satPhases`, which checks for a dash
before brackets) — not the Phase-Set Parser of the task validator.  In
particular a task with `PreferredPhases = "[2-4]"` (accepted by the task
validator) contributes to no phase at all, because `"[2-4]"` contains a dash
and `parseInt("[2")` is `NaN`. -/
theorem c3_amended :
    (∀ (ts : List Task) (p : Dec),
      (amGet (phaseDemand ts) p).getD 0 =
        (ts.map (fun t => if t.PreferredPhases ≠ "" && t.Duration > 0 then
          ((satPhases t).count p : Int) * t.Duration else 0)).sum) ∧
    (∀ t : Task, t.PreferredPhases = "[2-4]" → phaseDemand [t] = []) := by
  refine ⟨phaseDemand_lookup, ?_⟩
  intro t hp
  obtain ⟨tid, tn, tc, dur, rs, pp, mc⟩ := t
  simp only at hp
  subst hp
  have hsp : satPhases ⟨tid, tn, tc, dur, rs, "[2-4]", mc⟩ = [] := rfl
  simp only [phaseDemand, List.foldl_cons, List.foldl_nil, hsp]
  split <;> rfl

/-- C3 amended witness: a concrete `"[2-4]"` task contributes nothing, and a
concrete `"2-4"` task contributes its full duration to phase 3. -/
theorem c3_amended_witness :
    phaseDemand [⟨"T9", "t", "c", 7, "", "[2-4]", 1⟩] = [] ∧
    (amGet (phaseDemand [⟨"T9", "t", "c", 7, "", "2-4", 1⟩]) (intToDec 3)).getD 0 = 7 :=
  ⟨c3_amended.2 ⟨"T9", "t", "c", 7, "", "[2-4]", 1⟩ rfl, by decide⟩

/-- C6 counterexample: with one worker whose `AvailableSlots = "[1]"` and
`MaxLoadPerPhase = -1` and no tasks, `demand[1] = 0` exceeds
`capacity[1] = -1`, yet no saturation warning is emitted (the source only
iterates phases present in the demand map), refuting the claimed
"warning iff demand > capacity". -/
theorem c6_counterexample :
    satFindings [⟨"W1", "n", "", "[1]", -1, "g", 5⟩] [] = [] ∧
    (validateAll [] [⟨"W1", "n", "", "[1]", -1, "g", 5⟩] []).countP
      (fun f => decide (f.row = -1)) = 0 ∧
    (amGet (phaseDemand []) (intToDec 1)).getD 0 = 0 ∧
    (amGet (phaseCapacity [⟨"W1", "n", "", "[1]", -1, "g", 5⟩]) (intToDec 1)).getD 0 = -1 ∧
    (amGet (phaseCapacity [⟨"W1", "n", "", "[1]", -1, "g", 5⟩]) (intToDec 1)).getD 0 <
      (amGet (phaseDemand []) (intToDec 1)).getD 0 := by decide

theorem amSet_nodup {κ β : Type} [DecidableEq κ] {m : List (κ × β)} (k : κ) (v : β)
    (h : (m.map Prod.fst).Nodup) : ((amSet m k v).map Prod.fst).Nodup := by
  rw [amSet_keys]
  split
  · exact h
  · rename_i hc
    rw [List.nodup_append]
    refine ⟨h, List.nodup_singleton k, ?_⟩
    intro a ha hb
    rw [List.mem_singleton] at hb
    subst hb
    exact hc (by simpa [List.elem_iff] using ha)

theorem inner_fold_nodup (l : List Dec) (m : List (Dec × Int)) (d : Int)
    (h : (m.map Prod.fst).Nodup) :
    ((l.foldl (fun m2 q => amSet m2 q ((amGet m2 q).getD 0 + d)) m).map Prod.fst).Nodup := by
  induction l generalizing m with
  | nil => exact h
  | cons q l ih => exact ih _ (amSet_nodup q _ h)

theorem phaseDemand_nodup (ts : List Task) : ((phaseDemand ts).map Prod.fst).Nodup := by
  suffices h : ∀ m : List (Dec × Int), (m.map Prod.fst).Nodup →
      ((ts.foldl (fun m t =>
          if t.PreferredPhases ≠ "" && t.Duration > 0 then
            (satPhases t).foldl (fun m2 q => amSet m2 q ((amGet m2 q).getD 0 + t.Duration)) m
          else m) m).map Prod.fst).Nodup by
    exact h [] (by simp)
  induction ts with
  | nil => exact fun m hm => hm
  | cons t ts ih =>
    intro m hm
    rw [List.foldl_cons]
    apply ih
    split
    · exact inner_fold_nodup _ _ _ hm
    · exact hm

theorem inner_fold_pos (l : List Dec) (m : List (Dec × Int)) (d : Int)
    (hd : 0 < d) (h : ∀ e ∈ m, 0 < e.2) :
    ∀ e ∈ l.foldl (fun m2 q => amSet m2 q ((amGet m2 q).getD 0 + d)) m, 0 < e.2 := by
  induction l generalizing m with
  | nil => exact h
  | cons q l ih =>
    rw [List.foldl_cons]
    apply ih
    intro e he
    rcases amSet_mem he with he2 | he2
    · subst he2
      cases hq : amGet m q with
      | none => simpa using hd
      | some v =>
        have := h _ (amGet_mem hq)
        simp only [hq, Option.getD_some]
        omega
    · exact h _ he2

theorem phaseDemand_pos (ts : List Task) : ∀ e ∈ phaseDemand ts, 0 < e.2 := by
  suffices h : ∀ m : List (Dec × Int), (∀ e ∈ m, 0 < e.2) →
      ∀ e ∈ ts.foldl (fun m t =>
          if t.PreferredPhases ≠ "" && t.Duration > 0 then
            (satPhases t).foldl (fun m2 q => amSet m2 q ((amGet m2 q).getD 0 + t.Duration)) m
          else m) m, 0 < e.2 by
    exact h [] (by simp)
  induction ts with
  | nil => exact fun m hm => hm
  | cons t ts ih =>
    intro m hm
    rw [List.foldl_cons]
    apply ih
    split
    · rename_i hc
      simp only [Bool.and_eq_true, decide_eq_true_eq] at hc
      exact inner_fold_pos _ _ _ hc.2 hm
    · exact hm

/-- C6 amended: the concrete two-worker scenario produces exactly the single
expected saturation warning; in general the saturation findings are exactly
one warning per demand-map entry whose demand exceeds its capacity — so a
warning for phase `p` is emitted iff `p` has positive demand and that demand
exceeds `capacity[p]`; a phase absent from the demand map (demand 0) is
never warned about even when its capacity is negative. -/
theorem c6_amended :
    (validateAll [] [⟨"W1", "n", "", "[1]", 2, "g", 5⟩, ⟨"W2", "n", "", "[1]", 2, "g", 5⟩]
        [⟨"T1", "t", "c", 5, "", "[1]", 1⟩] =
      [⟨.task, "PreferredPhases", -1, satMessage (intToDec 1) 5 4, .warning⟩])
    ∧ (∀ (ws : List Worker) (ts : List Task),
        satFindings ws ts =
          ((phaseDemand ts).filter
              (fun e => decide (e.2 > (amGet (phaseCapacity ws) e.1).getD 0))).map
            (fun e => ⟨.task, "PreferredPhases", -1,
              satMessage e.1 e.2 ((amGet (phaseCapacity ws) e.1).getD 0), .warning⟩))
    ∧ (∀ (ts : List Task) (p : Dec) (v : Int),
        (p, v) ∈ phaseDemand ts → v = (amGet (phaseDemand ts) p).getD 0)
    ∧ (∀ (ts : List Task) (p : Dec),
        (∃ v, (p, v) ∈ phaseDemand ts) ↔ 0 < (amGet (phaseDemand ts) p).getD 0) := by
  refine ⟨by decide, ?_, ?_, ?_⟩
  · intro ws ts
    exact flatMap_ite_singleton (phaseDemand ts)
      (fun e => e.2 > (amGet (phaseCapacity ws) e.1).getD 0) _
  · intro ts p v hmem
    rw [amGet_of_mem_nodup hmem (phaseDemand_nodup ts)]
    rfl
  · intro ts p
    constructor
    · rintro ⟨v, hmem⟩
      have hpos := phaseDemand_pos ts _ hmem
      have := amGet_of_mem_nodup hmem (phaseDemand_nodup ts)
      rw [this]
      simpa using hpos
    · intro hpos
      cases hg : amGet (phaseDemand ts) p with
      | none => rw [hg] at hpos; simp at hpos
      | some v => exact ⟨v, amGet_mem hg⟩

/-- C6 amended witness: on a demand map with the single entry
`(1, 5)`, membership of that entry recovers the demand lookup 5. -/
theorem c6_amended_witness :
    (5 : Int) =
      (amGet (phaseDemand [⟨"T1", "t", "c", 5, "", "[1]", 1⟩]) (intToDec 1)).getD 0 :=
  c6_amended.2.2.1 [⟨"T1", "t", "c", 5, "", "[1]", 1⟩] (intToDec 1) 5 (by decide)

/-- Filtering one client row's findings to the `AttributesJSON` field at its
own row index leaves exactly the AttributesJSON check's findings. -/
theorem clientRow_filter_attr (tids seen : List String) (i : Nat) (c : Client) :
    (clientRow tids seen i c).filter
        (fun f => decide (f.field = "AttributesJSON") && decide (f.row = (i : Int))) =
      attrCheck i c := by
  unfold clientRow
  rw [List.filter_append, List.filter_append, List.filter_append]
  have hdup : (if seen.contains c.ClientID then
      [mkF .client "ClientID" i ("Duplicate ClientID: " ++ c.ClientID) .error] else []).filter
        (fun f => decide (f.field = "AttributesJSON") && decide (f.row = (i : Int))) = [] := by
    split <;> simp [mkF]
  have hpri : (if c.PriorityLevel < 1 || c.PriorityLevel > 5 then
      [mkF .client "PriorityLevel" i "Priority level must be between 1 and 5" .error] else []).filter
        (fun f => decide (f.field = "AttributesJSON") && decide (f.row = (i : Int))) = [] := by
    split <;> simp [mkF]
  have hreq : (if c.RequestedTaskIDs ≠ "" then
      ((jsSplit c.RequestedTaskIDs ',').map jsTrim).flatMap (fun taskId =>
        if taskId ≠ "" && !tids.contains taskId then
          [mkF .client "RequestedTaskIDs" i ("Unknown task ID: " ++ taskId) .error]
        else [])
      else []).filter
        (fun f => decide (f.field = "AttributesJSON") && decide (f.row = (i : Int))) = [] := by
    rw [List.filter_eq_nil_iff]
    intro f hf
    split at hf
    · obtain ⟨tid, -, hff⟩ := List.mem_flatMap.mp hf
      split at hff <;> simp_all [mkF]
    · simp at hf
  have hattr : (attrCheck i c).filter
      (fun f => decide (f.field = "AttributesJSON") && decide (f.row = (i : Int))) =
        attrCheck i c := by
    rw [List.filter_eq_self]
    intro f hf
    obtain ⟨-, hr, hfield⟩ := attrCheck_shape i c f hf
    simp [hr, hfield]
  rw [hdup, hpri, hreq, hattr]
  simp

/-- Restricting the full report to the `AttributesJSON` field at client row
`i` leaves exactly that client's AttributesJSON check. -/
theorem validateAll_filter_attr (cs : List Client) (ws : List Worker) (ts : List Task)
    (i : Nat) (h : i < cs.length) :
    (validateAll cs ws ts).filter
        (fun f => decide (f.field = "AttributesJSON") && decide (f.row = (i : Int))) =
      attrCheck i (cs.get ⟨i, h⟩) := by
  rw [validateAll_decomp]
  simp only [List.filter_append]
  have hW : (validateWorkers ws []).filter
      (fun f => decide (f.field = "AttributesJSON") && decide (f.row = (i : Int))) = [] := by
    rw [List.filter_eq_nil_iff]
    intro f hf
    obtain ⟨-, -, hfield⟩ := validateWorkers_mem ws f hf
    rcases hfield with hh | hh | hh | hh <;> simp [hh]
  have hT : (validateTasks ts ws []).filter
      (fun f => decide (f.field = "AttributesJSON") && decide (f.row = (i : Int))) = [] := by
    rw [List.filter_eq_nil_iff]
    intro f hf
    obtain ⟨-, -, hfield⟩ := validateTasks_mem ts ws f hf
    rcases hfield with hh | hh | hh | hh | hh <;> simp [hh]
  have hSC : (skillCoverage ws ts).filter
      (fun f => decide (f.field = "AttributesJSON") && decide (f.row = (i : Int))) = [] := by
    rw [List.filter_eq_nil_iff]
    intro f hf
    obtain ⟨-, -, hfield, -⟩ := skillCoverageAux_shape ws 0 ts f hf
    simp [hfield]
  have hSat : (satFindings ws ts).filter
      (fun f => decide (f.field = "AttributesJSON") && decide (f.row = (i : Int))) = [] := by
    rw [List.filter_eq_nil_iff]
    intro f hf
    obtain ⟨-, -, hfield, -⟩ := satFindings_shape ws ts f hf
    simp [hfield]
  have hCirc : (circFindings cs).filter
      (fun f => decide (f.field = "AttributesJSON") && decide (f.row = (i : Int))) = [] := by
    rw [List.filter_eq_nil_iff]
    intro f hf
    obtain ⟨-, -, hfield, -⟩ := circFindings_shape cs f hf
    simp [hfield]
  have hC : (validateClients cs ts []).filter
      (fun f => decide (f.field = "AttributesJSON") && decide (f.row = (i : Int))) =
        attrCheck i (cs.get ⟨i, h⟩) := by
    have h2 : ∀ (seen : List String) (j : Nat) (x : Client),
        ∀ f ∈ clientRow (ts.map Task.TaskID) seen j x, f.row = (j : Int) :=
      fun seen j x f hf => (clientRow_shape _ seen j x f hf).2.1
    have key := runRows_filter_at (clientRow (ts.map Task.TaskID))
      (fun c seen => c.ClientID :: seen) (fun f => decide (f.field = "AttributesJSON"))
      h2 [] 0 cs i h
    simp only [Nat.zero_add] at key
    rw [validateClients, key, clientRow_filter_attr]
  rw [hC, hW, hT, hSC, hSat, hCirc]
  simp

/-- C5: for a client row whose non-blank `AttributesJSON` fails to parse as
JSON, exactly one error finding (malformed JSON) is emitted for that row's
`AttributesJSON` field when the string contains `{` or `[`, and exactly one
warning finding (plain text should be converted) otherwise; on a successful
parse no finding is emitted for that field. -/
theorem c5_attributes_json (cs : List Client) (ws : List Worker) (ts : List Task)
    (i : Nat) (h : i < cs.length) :
    ((cs.get ⟨i, h⟩).AttributesJSON ≠ "" →
      jsTrim (cs.get ⟨i, h⟩).AttributesJSON ≠ "" →
      jsonParse (cs.get ⟨i, h⟩).AttributesJSON = none →
      (jsIncludes (cs.get ⟨i, h⟩).AttributesJSON "\x7b"
        || jsIncludes (cs.get ⟨i, h⟩).AttributesJSON "[") = true →
      (validateAll cs ws ts).filter
          (fun f => decide (f.field = "AttributesJSON") && decide (f.row = (i : Int))) =
        [mkF .client "AttributesJSON" i
          "Invalid JSON format - contains JSON characters but is malformed" .error])
    ∧ ((cs.get ⟨i, h⟩).AttributesJSON ≠ "" →
      jsTrim (cs.get ⟨i, h⟩).AttributesJSON ≠ "" →
      jsonParse (cs.get ⟨i, h⟩).AttributesJSON = none →
      (jsIncludes (cs.get ⟨i, h⟩).AttributesJSON "\x7b"
        || jsIncludes (cs.get ⟨i, h⟩).AttributesJSON "[") = false →
      (validateAll cs ws ts).filter
          (fun f => decide (f.field = "AttributesJSON") && decide (f.row = (i : Int))) =
        [mkF .client "AttributesJSON" i
          "Non-JSON text detected - should be converted to valid JSON format" .warning])
    ∧ ((jsonParse (cs.get ⟨i, h⟩).AttributesJSON).isSome →
      (validateAll cs ws ts).filter
          (fun f => decide (f.field = "AttributesJSON") && decide (f.row = (i : Int))) = []) := by
  refine ⟨?_, ?_, ?_⟩
  · intro hne htrim hparse hbrace
    rw [validateAll_filter_attr cs ws ts i h]
    simp only [List.get_eq_getElem] at hne htrim hparse hbrace
    simp [attrCheck, hne, htrim, hparse, hbrace]
  · intro hne htrim hparse hbrace
    rw [validateAll_filter_attr cs ws ts i h]
    simp only [List.get_eq_getElem] at hne htrim hparse hbrace
    simp [attrCheck, hne, htrim, hparse, hbrace]
  · intro hsome
    rw [validateAll_filter_attr cs ws ts i h]
    obtain ⟨v, hv⟩ := Option.isSome_iff_exists.mp hsome
    unfold attrCheck
    rw [hv]
    split <;> rfl

/-- C5 witness: the three cases at concrete clients — malformed `"{bad"`
(error), plain `"hello"` (warning), valid `"{}"` (no finding). -/
theorem c5_witness :
    ((validateAll [⟨"C1", "n", 3, "", "g", "\x7bbad"⟩] [] []).filter
        (fun f => decide (f.field = "AttributesJSON") && decide (f.row = (0 : Int))) =
      [mkF .client "AttributesJSON" 0
        "Invalid JSON format - contains JSON characters but is malformed" .error])
    ∧ ((validateAll [⟨"C2", "n", 3, "", "g", "hello"⟩] [] []).filter
        (fun f => decide (f.field = "AttributesJSON") && decide (f.row = (0 : Int))) =
      [mkF .client "AttributesJSON" 0
        "Non-JSON text detected - should be converted to valid JSON format" .warning])
    ∧ ((validateAll [⟨"C3", "n", 3, "", "g", "\x7b\x7d"⟩] [] []).filter
        (fun f => decide (f.field = "AttributesJSON") && decide (f.row = (0 : Int))) = []) :=
  ⟨(c5_attributes_json [⟨"C1", "n", 3, "", "g", "\x7bbad"⟩] [] [] 0 (by decide)).1
      (by decide) (by decide) rfl (by decide),
    (c5_attributes_json [⟨"C2", "n", 3, "", "g", "hello"⟩] [] [] 0 (by decide)).2.1
      (by decide) (by decide) rfl (by decide),
    (c5_attributes_json [⟨"C3", "n", 3, "", "g", "\x7b\x7d"⟩] [] [] 0 (by decide)).2.2 rfl⟩

/-! ## Duplicate-identifier lemmas (C7) -/

theorem stateAt_cons_mem {α : Type} (pid : α → String) (l : List α)
    (seen : List String) (a : String) :
    a ∈ stateAt (fun x s => pid x :: s) seen l ↔ a ∈ seen ∨ a ∈ l.map pid := by
  induction l generalizing seen with
  | nil => simp [stateAt]
  | cons x l ih =>
    simp only [stateAt, List.foldl_cons] at *
    rw [ih]
    simp only [List.mem_cons, List.map_cons]
    tauto

theorem stateAt_contains {α : Type} (pid : α → String) (l : List α) (a : String) :
    (stateAt (fun x s => pid x :: s) [] l).contains a = (l.map pid).contains a := by
  by_cases hmem : a ∈ l.map pid
  · have h1 : a ∈ stateAt (fun x s => pid x :: s) [] l :=
      (stateAt_cons_mem pid l [] a).mpr (Or.inr hmem)
    rw [show (stateAt (fun x s => pid x :: s) [] l).contains a = true from by
        simpa [List.elem_iff] using h1,
      show (l.map pid).contains a = true from by simpa [List.elem_iff] using hmem]
  · have h1 : a ∉ stateAt (fun x s => pid x :: s) [] l := by
      intro hh
      rcases (stateAt_cons_mem pid l [] a).mp hh with hcon | hcon
      · simp at hcon
      · exact hmem hcon
    rw [show (stateAt (fun x s => pid x :: s) [] l).contains a = false from by
        simpa [List.elem_iff] using h1,
      show (l.map pid).contains a = false from by simpa [List.elem_iff] using hmem]

theorem clientRow_filter_dup (tids seen : List String) (i : Nat) (c : Client) :
    (clientRow tids seen i c).filter
        (fun f => decide (f.field = "ClientID") && decide (f.row = (i : Int))) =
      if seen.contains c.ClientID then
        [mkF .client "ClientID" i ("Duplicate ClientID: " ++ c.ClientID) .error]
      else [] := by
  unfold clientRow
  rw [List.filter_append, List.filter_append, List.filter_append]
  have hdup : (if seen.contains c.ClientID then
      [mkF .client "ClientID" i ("Duplicate ClientID: " ++ c.ClientID) .error] else []).filter
        (fun f => decide (f.field = "ClientID") && decide (f.row = (i : Int))) =
      if seen.contains c.ClientID then
        [mkF .client "ClientID" i ("Duplicate ClientID: " ++ c.ClientID) .error]
      else [] := by
    split <;> simp [mkF]
  have hpri : (if c.PriorityLevel < 1 || c.PriorityLevel > 5 then
      [mkF .client "PriorityLevel" i "Priority level must be between 1 and 5" .error] else []).filter
        (fun f => decide (f.field = "ClientID") && decide (f.row = (i : Int))) = [] := by
    split <;> simp [mkF]
  have hreq : (if c.RequestedTaskIDs ≠ "" then
      ((jsSplit c.RequestedTaskIDs ',').map jsTrim).flatMap (fun taskId =>
        if taskId ≠ "" && !tids.contains taskId then
          [mkF .client "RequestedTaskIDs" i ("Unknown task ID: " ++ taskId) .error]
        else [])
      else []).filter
        (fun f => decide (f.field = "ClientID") && decide (f.row = (i : Int))) = [] := by
    rw [List.filter_eq_nil_iff]
    intro f hf
    split at hf
    · obtain ⟨tid, -, hff⟩ := List.mem_flatMap.mp hf
      split at hff <;> simp_all [mkF]
    · simp at hf
  have hattr : (attrCheck i c).filter
      (fun f => decide (f.field = "ClientID") && decide (f.row = (i : Int))) = [] := by
    rw [List.filter_eq_nil_iff]
    intro f hf
    obtain ⟨-, -, hfield⟩ := attrCheck_shape i c f hf
    simp [hfield]
  rw [hdup, hpri, hreq, hattr]
  simp

theorem workerRow_filter_dup (seen : List String) (i : Nat) (w : Worker) :
    (workerRow seen i w).filter
        (fun f => decide (f.field = "WorkerID") && decide (f.row = (i : Int))) =
      if seen.contains w.WorkerID then
        [mkF .worker "WorkerID" i ("Duplicate WorkerID: " ++ w.WorkerID) .error]
      else [] := by
  unfold workerRow
  rw [List.filter_append, List.filter_append, List.filter_append]
  have hdup : (if seen.contains w.WorkerID then
      [mkF .worker "WorkerID" i ("Duplicate WorkerID: " ++ w.WorkerID) .error] else []).filter
        (fun f => decide (f.field = "WorkerID") && decide (f.row = (i : Int))) =
      if seen.contains w.WorkerID then
        [mkF .worker "WorkerID" i ("Duplicate WorkerID: " ++ w.WorkerID) .error]
      else [] := by
    split <;> simp [mkF]
  have hslots : (slotsCheck i w).filter
      (fun f => decide (f.field = "WorkerID") && decide (f.row = (i : Int))) = [] := by
    rw [List.filter_eq_nil_iff]
    intro f hf
    obtain ⟨-, -, hfield⟩ := slotsCheck_shape i w f hf
    rcases hfield with hh | hh <;> simp [hh]
  have hml : (if w.MaxLoadPerPhase < 1 then
      [mkF .worker "MaxLoadPerPhase" i "MaxLoadPerPhase must be at least 1" .error] else []).filter
        (fun f => decide (f.field = "WorkerID") && decide (f.row = (i : Int))) = [] := by
    split <;> simp [mkF]
  have hql : (if w.QualificationLevel < 1 || w.QualificationLevel > 10 then
      [mkF .worker "QualificationLevel" i
        "QualificationLevel should be between 1 and 10" .warning] else []).filter
        (fun f => decide (f.field = "WorkerID") && decide (f.row = (i : Int))) = [] := by
    split <;> simp [mkF]
  rw [hdup, hslots, hml, hql]
  simp

theorem taskRow_filter_dup (skills seen : List String) (i : Nat) (t : Task) :
    (taskRow skills seen i t).filter
        (fun f => decide (f.field = "TaskID") && decide (f.row = (i : Int))) =
      if seen.contains t.TaskID then
        [mkF .task "TaskID" i ("Duplicate TaskID: " ++ t.TaskID) .error]
      else [] := by
  unfold taskRow
  rw [List.filter_append, List.filter_append, List.filter_append, List.filter_append]
  have hdup : (if seen.contains t.TaskID then
      [mkF .task "TaskID" i ("Duplicate TaskID: " ++ t.TaskID) .error] else []).filter
        (fun f => decide (f.field = "TaskID") && decide (f.row = (i : Int))) =
      if seen.contains t.TaskID then
        [mkF .task "TaskID" i ("Duplicate TaskID: " ++ t.TaskID) .error]
      else [] := by
    split <;> simp [mkF]
  have hdur : (if t.Duration < 1 then
      [mkF .task "Duration" i "Duration must be at least 1" .error] else []).filter
        (fun f => decide (f.field = "TaskID") && decide (f.row = (i : Int))) = [] := by
    split <;> simp [mkF]
  have hmc : (if t.MaxConcurrent < 1 then
      [mkF .task "MaxConcurrent" i "MaxConcurrent must be at least 1" .error] else []).filter
        (fun f => decide (f.field = "TaskID") && decide (f.row = (i : Int))) = [] := by
    split <;> simp [mkF]
  have hrs : (reqSkillsCheck skills i t).filter
      (fun f => decide (f.field = "TaskID") && decide (f.row = (i : Int))) = [] := by
    rw [List.filter_eq_nil_iff]
    intro f hf
    obtain ⟨-, -, hfield, -⟩ := reqSkillsCheck_shape skills i t f hf
    simp [hfield]
  have hpp : (phasesCheck i t).filter
      (fun f => decide (f.field = "TaskID") && decide (f.row = (i : Int))) = [] := by
    rw [List.filter_eq_nil_iff]
    intro f hf
    obtain ⟨-, -, hfield⟩ := phasesCheck_shape i t f hf
    simp [hfield]
  rw [hdup, hdur, hmc, hrs, hpp]
  simp

/-- C7: in every entity collection the first row carrying a given identifier
is never flagged as a duplicate, and every later row carrying the same
identifier gets exactly one error finding at that row: for each collection,
the report filtered to the identifier field at row `i` is exactly one
duplicate error when the identifier occurs among rows `< i`, and empty
otherwise. -/
theorem c7_duplicate_ids (cs : List Client) (ws : List Worker) (ts : List Task) :
    (∀ i (h : i < cs.length),
      (validateAll cs ws ts).filter
          (fun f => decide (f.field = "ClientID") && decide (f.row = (i : Int))) =
        if ((cs.take i).map Client.ClientID).contains (cs.get ⟨i, h⟩).ClientID then
          [mkF .client "ClientID" i
            ("Duplicate ClientID: " ++ (cs.get ⟨i, h⟩).ClientID) .error]
        else [])
    ∧ (∀ i (h : i < ws.length),
      (validateAll cs ws ts).filter
          (fun f => decide (f.field = "WorkerID") && decide (f.row = (i : Int))) =
        if ((ws.take i).map Worker.WorkerID).contains (ws.get ⟨i, h⟩).WorkerID then
          [mkF .worker "WorkerID" i
            ("Duplicate WorkerID: " ++ (ws.get ⟨i, h⟩).WorkerID) .error]
        else [])
    ∧ (∀ i (h : i < ts.length),
      (validateAll cs ws ts).filter
          (fun f => decide (f.field = "TaskID") && decide (f.row = (i : Int))) =
        if ((ts.take i).map Task.TaskID).contains (ts.get ⟨i, h⟩).TaskID then
          [mkF .task "TaskID" i
            ("Duplicate TaskID: " ++ (ts.get ⟨i, h⟩).TaskID) .error]
        else []) := by
  refine ⟨?_, ?_, ?_⟩
  · intro i h
    rw [validateAll_decomp]
    simp only [List.filter_append]
    have hW : (validateWorkers ws []).filter
        (fun f => decide (f.field = "ClientID") && decide (f.row = (i : Int))) = [] := by
      rw [List.filter_eq_nil_iff]
      intro f hf
      obtain ⟨-, -, hfield⟩ := validateWorkers_mem ws f hf
      rcases hfield with hh | hh | hh | hh <;> simp [hh]
    have hT : (validateTasks ts ws []).filter
        (fun f => decide (f.field = "ClientID") && decide (f.row = (i : Int))) = [] := by
      rw [List.filter_eq_nil_iff]
      intro f hf
      obtain ⟨-, -, hfield⟩ := validateTasks_mem ts ws f hf
      rcases hfield with hh | hh | hh | hh | hh <;> simp [hh]
    have hSC : (skillCoverage ws ts).filter
        (fun f => decide (f.field = "ClientID") && decide (f.row = (i : Int))) = [] := by
      rw [List.filter_eq_nil_iff]
      intro f hf
      obtain ⟨-, -, hfield, -⟩ := skillCoverageAux_shape ws 0 ts f hf
      simp [hfield]
    have hSat : (satFindings ws ts).filter
        (fun f => decide (f.field = "ClientID") && decide (f.row = (i : Int))) = [] := by
      rw [List.filter_eq_nil_iff]
      intro f hf
      obtain ⟨-, -, hfield, -⟩ := satFindings_shape ws ts f hf
      simp [hfield]
    have hCirc : (circFindings cs).filter
        (fun f => decide (f.field = "ClientID") && decide (f.row = (i : Int))) = [] := by
      rw [List.filter_eq_nil_iff]
      intro f hf
      obtain ⟨-, -, hfield, -⟩ := circFindings_shape cs f hf
      simp [hfield]
    have h2 : ∀ (seen : List String) (j : Nat) (x : Client),
        ∀ f ∈ clientRow (ts.map Task.TaskID) seen j x, f.row = (j : Int) :=
      fun seen j x f hf => (clientRow_shape _ seen j x f hf).2.1
    have key := runRows_filter_at (clientRow (ts.map Task.TaskID))
      (fun c seen => c.ClientID :: seen) (fun f => decide (f.field = "ClientID"))
      h2 [] 0 cs i h
    simp only [Nat.zero_add] at key
    rw [validateClients, key, clientRow_filter_dup, stateAt_contains,
      hW, hT, hSC, hSat, hCirc]
    simp
  · intro i h
    rw [validateAll_decomp]
    simp only [List.filter_append]
    have hC : (validateClients cs ts []).filter
        (fun f => decide (f.field = "WorkerID") && decide (f.row = (i : Int))) = [] := by
      rw [List.filter_eq_nil_iff]
      intro f hf
      obtain ⟨-, -, hfield⟩ := validateClients_mem cs ts f hf
      rcases hfield with hh | hh | hh | hh <;> simp [hh]
    have hT : (validateTasks ts ws []).filter
        (fun f => decide (f.field = "WorkerID") && decide (f.row = (i : Int))) = [] := by
      rw [List.filter_eq_nil_iff]
      intro f hf
      obtain ⟨-, -, hfield⟩ := validateTasks_mem ts ws f hf
      rcases hfield with hh | hh | hh | hh | hh <;> simp [hh]
    have hSC : (skillCoverage ws ts).filter
        (fun f => decide (f.field = "WorkerID") && decide (f.row = (i : Int))) = [] := by
      rw [List.filter_eq_nil_iff]
      intro f hf
      obtain ⟨-, -, hfield, -⟩ := skillCoverageAux_shape ws 0 ts f hf
      simp [hfield]
    have hSat : (satFindings ws ts).filter
        (fun f => decide (f.field = "WorkerID") && decide (f.row = (i : Int))) = [] := by
      rw [List.filter_eq_nil_iff]
      intro f hf
      obtain ⟨-, -, hfield, -⟩ := satFindings_shape ws ts f hf
      simp [hfield]
    have hCirc : (circFindings cs).filter
        (fun f => decide (f.field = "WorkerID") && decide (f.row = (i : Int))) = [] := by
      rw [List.filter_eq_nil_iff]
      intro f hf
      obtain ⟨-, -, hfield, -⟩ := circFindings_shape cs f hf
      simp [hfield]
    have h2 : ∀ (seen : List String) (j : Nat) (x : Worker),
        ∀ f ∈ workerRow seen j x, f.row = (j : Int) :=
      fun seen j x f hf => (workerRow_shape seen j x f hf).2.1
    have key := runRows_filter_at workerRow
      (fun w seen => w.WorkerID :: seen) (fun f => decide (f.field = "WorkerID"))
      h2 [] 0 ws i h
    simp only [Nat.zero_add] at key
    rw [validateWorkers, key, workerRow_filter_dup, stateAt_contains,
      hC, hT, hSC, hSat, hCirc]
    simp
  · intro i h
    rw [validateAll_decomp]
    simp only [List.filter_append]
    have hC : (validateClients cs ts []).filter
        (fun f => decide (f.field = "TaskID") && decide (f.row = (i : Int))) = [] := by
      rw [List.filter_eq_nil_iff]
      intro f hf
      obtain ⟨-, -, hfield⟩ := validateClients_mem cs ts f hf
      rcases hfield with hh | hh | hh | hh <;> simp [hh]
    have hW : (validateWorkers ws []).filter
        (fun f => decide (f.field = "TaskID") && decide (f.row = (i : Int))) = [] := by
      rw [List.filter_eq_nil_iff]
      intro f hf
      obtain ⟨-, -, hfield⟩ := validateWorkers_mem ws f hf
      rcases hfield with hh | hh | hh | hh <;> simp [hh]
    have hSC : (skillCoverage ws ts).filter
        (fun f => decide (f.field = "TaskID") && decide (f.row = (i : Int))) = [] := by
      rw [List.filter_eq_nil_iff]
      intro f hf
      obtain ⟨-, -, hfield, -⟩ := skillCoverageAux_shape ws 0 ts f hf
      simp [hfield]
    have hSat : (satFindings ws ts).filter
        (fun f => decide (f.field = "TaskID") && decide (f.row = (i : Int))) = [] := by
      rw [List.filter_eq_nil_iff]
      intro f hf
      obtain ⟨-, -, hfield, -⟩ := satFindings_shape ws ts f hf
      simp [hfield]
    have hCirc : (circFindings cs).filter
        (fun f => decide (f.field = "TaskID") && decide (f.row = (i : Int))) = [] := by
      rw [List.filter_eq_nil_iff]
      intro f hf
      obtain ⟨-, -, hfield, -⟩ := circFindings_shape cs f hf
      simp [hfield]
    have h2 : ∀ (seen : List String) (j : Nat) (x : Task),
        ∀ f ∈ taskRow (workerSkillsUnion ws) seen j x, f.row = (j : Int) :=
      fun seen j x f hf => (taskRow_shape _ seen j x f hf).2.1
    have key := runRows_filter_at (taskRow (workerSkillsUnion ws))
      (fun t seen => t.TaskID :: seen) (fun f => decide (f.field = "TaskID"))
      h2 [] 0 ts i h
    simp only [Nat.zero_add] at key
    rw [validateTasks, key, taskRow_filter_dup, stateAt_contains,
      hC, hW, hSC, hSat, hCirc]
    simp

/-- C7 witness: a worker collection with `WorkerID` "W1" at rows 0 and 2
yields no duplicate finding at rows 0 and 1 and exactly one duplicate error
at row 2. -/
theorem c7_witness :
    ((validateAll [] [⟨"W1", "n", "", "[1]", 2, "g", 5⟩, ⟨"W2", "n", "", "[1]", 2, "g", 5⟩,
          ⟨"W1", "n", "", "[1]", 2, "g", 5⟩] []).filter
        (fun f => decide (f.field = "WorkerID") && decide (f.row = (0 : Int))) = [])
    ∧ ((validateAll [] [⟨"W1", "n", "", "[1]", 2, "g", 5⟩, ⟨"W2", "n", "", "[1]", 2, "g", 5⟩,
          ⟨"W1", "n", "", "[1]", 2, "g", 5⟩] []).filter
        (fun f => decide (f.field = "WorkerID") && decide (f.row = (2 : Int))) =
      [mkF .worker "WorkerID" 2 ("Duplicate WorkerID: " ++ "W1") .error]) := by
  constructor
  · have h := (c7_duplicate_ids [] [⟨"W1", "n", "", "[1]", 2, "g", 5⟩,
      ⟨"W2", "n", "", "[1]", 2, "g", 5⟩, ⟨"W1", "n", "", "[1]", 2, "g", 5⟩] []).2.1
      0 (by decide)
    exact h.trans (by decide)
  · have h := (c7_duplicate_ids [] [⟨"W1", "n", "", "[1]", 2, "g", 5⟩,
      ⟨"W2", "n", "", "[1]", 2, "g", 5⟩, ⟨"W1", "n", "", "[1]", 2, "g", 5⟩] []).2.1
      2 (by decide)
    exact h.trans (by decide)

/-! ## AvailableSlots error characterization (C2) -/

/-- C2 counterexample: the Phase-Set Parser (the task validator's decision
table) accepts the unbracketed range `"1-3"` without any finding, yet a
worker whose `AvailableSlots` is `"1-3"` receives an error-severity finding:
the worker validator only accepts JSON arrays. -/
theorem c2_counterexample :
    phasesCheck 0 ⟨"T1", "t", "c", 1, "", "1-3", 1⟩ = [] ∧
    (validateAll [] [⟨"W1", "n", "", "1-3", 2, "g", 5⟩] []).countP
      (fun f => decide (f.field = "AvailableSlots" ∧ f.severity = Severity.error)) = 1 := by
  decide

theorem workerRow_filter_slotsErr (seen : List String) (i : Nat) (w : Worker) :
    (workerRow seen i w).filter
        (fun f => (decide (f.field = "AvailableSlots") && decide (f.severity = Severity.error))
          && decide (f.row = (i : Int))) =
      (if w.AvailableSlots ≠ "" && jsTrim w.AvailableSlots ≠ "" then
        match jsonParse w.AvailableSlots with
        | some (Json.arr slots) =>
          if !slots.all isPosNum then
            [mkF .worker "AvailableSlots" i
              "AvailableSlots must contain only positive numbers" .error]
          else []
        | some _ =>
          [mkF .worker "AvailableSlots" i "AvailableSlots must be an array format" .error]
        | none =>
          if strContains w.AvailableSlots ',' then []
          else
            [mkF .worker "AvailableSlots" i
              "Invalid AvailableSlots format - must be valid JSON array like [1,2,3]" .error]
      else []) := by
  unfold workerRow slotsCheck
  rw [List.filter_append, List.filter_append, List.filter_append]
  have hdup : (if seen.contains w.WorkerID then
      [mkF .worker "WorkerID" i ("Duplicate WorkerID: " ++ w.WorkerID) .error] else []).filter
        (fun f => (decide (f.field = "AvailableSlots") && decide (f.severity = Severity.error))
          && decide (f.row = (i : Int))) = [] := by
    split <;> simp [mkF]
  have hml : (if w.MaxLoadPerPhase < 1 then
      [mkF .worker "MaxLoadPerPhase" i "MaxLoadPerPhase must be at least 1" .error] else []).filter
        (fun f => (decide (f.field = "AvailableSlots") && decide (f.severity = Severity.error))
          && decide (f.row = (i : Int))) = [] := by
    split <;> simp [mkF]
  have hql : (if w.QualificationLevel < 1 || w.QualificationLevel > 10 then
      [mkF .worker "QualificationLevel" i
        "QualificationLevel should be between 1 and 10" .warning] else []).filter
        (fun f => (decide (f.field = "AvailableSlots") && decide (f.severity = Severity.error))
          && decide (f.row = (i : Int))) = [] := by
    split <;> simp [mkF]
  rw [hdup, hml, hql]
  simp only [List.append_nil, List.nil_append]
  by_cases hb : (w.AvailableSlots ≠ "" && jsTrim w.AvailableSlots ≠ "") = true
  · rw [if_pos hb, if_pos hb]
    cases hjp : jsonParse w.AvailableSlots with
    | none =>
      by_cases hcm : strContains w.AvailableSlots ',' = true
      · simp [hcm, mkF]
      · simp [hcm, mkF]
    | some v =>
      cases v with
      | arr slots =>
        by_cases hall : (!slots.all isPosNum) = true
        · simp [hall, mkF]
        · simp [hall, mkF]
      | null => simp [mkF]
      | bool b => simp [mkF]
      | num d => simp [mkF]
      | str s => simp [mkF]
      | obj fs => simp [mkF]
  · rw [if_neg hb, if_neg hb]
    simp

/-- C2 amended: the worker validator does not run the Phase-Set Parser on
`AvailableSlots`; it accepts exactly JSON arrays of positive numbers.  An
error-severity finding is emitted for a non-blank `AvailableSlots` iff
either `JSON.parse` succeeds on something other than an array of positive
numbers, or `JSON.parse` fails and the string has no comma (a comma-bearing
unparseable string gets only a warning); range forms such as `"1-3"`,
accepted by the Phase-Set Parser, therefore produce an error. -/
theorem c2_amended (cs : List Client) (ws : List Worker) (ts : List Task)
    (i : Nat) (h : i < ws.length) :
    (validateAll cs ws ts).filter
        (fun f => (decide (f.field = "AvailableSlots") && decide (f.severity = Severity.error))
          && decide (f.row = (i : Int))) =
      (if (ws.get ⟨i, h⟩).AvailableSlots ≠ "" && jsTrim (ws.get ⟨i, h⟩).AvailableSlots ≠ "" then
        match jsonParse (ws.get ⟨i, h⟩).AvailableSlots with
        | some (Json.arr slots) =>
          if !slots.all isPosNum then
            [mkF .worker "AvailableSlots" i
              "AvailableSlots must contain only positive numbers" .error]
          else []
        | some _ =>
          [mkF .worker "AvailableSlots" i "AvailableSlots must be an array format" .error]
        | none =>
          if strContains (ws.get ⟨i, h⟩).AvailableSlots ',' then []
          else
            [mkF .worker "AvailableSlots" i
              "Invalid AvailableSlots format - must be valid JSON array like [1,2,3]" .error]
      else []) := by
  rw [validateAll_decomp]
  simp only [List.filter_append]
  have hC : (validateClients cs ts []).filter
      (fun f => (decide (f.field = "AvailableSlots") && decide (f.severity = Severity.error))
        && decide (f.row = (i : Int))) = [] := by
    rw [List.filter_eq_nil_iff]
    intro f hf
    obtain ⟨-, -, hfield⟩ := validateClients_mem cs ts f hf
    rcases hfield with hh | hh | hh | hh <;> simp [hh]
  have hT : (validateTasks ts ws []).filter
      (fun f => (decide (f.field = "AvailableSlots") && decide (f.severity = Severity.error))
        && decide (f.row = (i : Int))) = [] := by
    rw [List.filter_eq_nil_iff]
    intro f hf
    obtain ⟨-, -, hfield⟩ := validateTasks_mem ts ws f hf
    rcases hfield with hh | hh | hh | hh | hh <;> simp [hh]
  have hSC : (skillCoverage ws ts).filter
      (fun f => (decide (f.field = "AvailableSlots") && decide (f.severity = Severity.error))
        && decide (f.row = (i : Int))) = [] := by
    rw [List.filter_eq_nil_iff]
    intro f hf
    obtain ⟨-, -, hfield, -⟩ := skillCoverageAux_shape ws 0 ts f hf
    simp [hfield]
  have hSat : (satFindings ws ts).filter
      (fun f => (decide (f.field = "AvailableSlots") && decide (f.severity = Severity.error))
        && decide (f.row = (i : Int))) = [] := by
    rw [List.filter_eq_nil_iff]
    intro f hf
    obtain ⟨-, -, hfield, -⟩ := satFindings_shape ws ts f hf
    simp [hfield]
  have hCirc : (circFindings cs).filter
      (fun f => (decide (f.field = "AvailableSlots") && decide (f.severity = Severity.error))
        && decide (f.row = (i : Int))) = [] := by
    rw [List.filter_eq_nil_iff]
    intro f hf
    obtain ⟨-, -, hfield, -⟩ := circFindings_shape cs f hf
    simp [hfield]
  have h2 : ∀ (seen : List String) (j : Nat) (x : Worker),
      ∀ f ∈ workerRow seen j x, f.row = (j : Int) :=
    fun seen j x f hf => (workerRow_shape seen j x f hf).2.1
  have key := runRows_filter_at workerRow (fun w seen => w.WorkerID :: seen)
    (fun f => decide (f.field = "AvailableSlots") && decide (f.severity = Severity.error))
    h2 [] 0 ws i h
  simp only [Nat.zero_add] at key
  rw [validateWorkers, key, workerRow_filter_slotsErr, hC, hT, hSC, hSat, hCirc]
  simp

/-- C2 amended witness: the worker with `AvailableSlots = "1-3"` gets the
invalid-format error. -/
theorem c2_amended_witness :
    (validateAll [] [⟨"W1", "n", "", "1-3", 2, "g", 5⟩] []).filter
        (fun f => (decide (f.field = "AvailableSlots") && decide (f.severity = Severity.error))
          && decide (f.row = (0 : Int))) =
      [mkF .worker "AvailableSlots" 0
        "Invalid AvailableSlots format - must be valid JSON array like [1,2,3]" .error] :=
  (c2_amended [] [⟨"W1", "n", "", "1-3", 2, "g", 5⟩] [] 0 (by decide)).trans (by decide)

/-! ## Skill-check lemmas (C4, C10) -/

theorem taskRow_filter_reqskills (skills seen : List String) (i : Nat) (t : Task) :
    (taskRow skills seen i t).filter
        (fun f => decide (f.field = "RequiredSkills") && decide (f.row = (i : Int))) =
      reqSkillsCheck skills i t := by
  unfold taskRow
  rw [List.filter_append, List.filter_append, List.filter_append, List.filter_append]
  have hdup : (if seen.contains t.TaskID then
      [mkF .task "TaskID" i ("Duplicate TaskID: " ++ t.TaskID) .error] else []).filter
        (fun f => decide (f.field = "RequiredSkills") && decide (f.row = (i : Int))) = [] := by
    split <;> simp [mkF]
  have hdur : (if t.Duration < 1 then
      [mkF .task "Duration" i "Duration must be at least 1" .error] else []).filter
        (fun f => decide (f.field = "RequiredSkills") && decide (f.row = (i : Int))) = [] := by
    split <;> simp [mkF]
  have hmc : (if t.MaxConcurrent < 1 then
      [mkF .task "MaxConcurrent" i "MaxConcurrent must be at least 1" .error] else []).filter
        (fun f => decide (f.field = "RequiredSkills") && decide (f.row = (i : Int))) = [] := by
    split <;> simp [mkF]
  have hrs : (reqSkillsCheck skills i t).filter
      (fun f => decide (f.field = "RequiredSkills") && decide (f.row = (i : Int))) =
        reqSkillsCheck skills i t := by
    rw [List.filter_eq_self]
    intro f hf
    obtain ⟨-, hr, hfield, -⟩ := reqSkillsCheck_shape skills i t f hf
    simp [hr, hfield]
  have hpp : (phasesCheck i t).filter
      (fun f => decide (f.field = "RequiredSkills") && decide (f.row = (i : Int))) = [] := by
    rw [List.filter_eq_nil_iff]
    intro f hf
    obtain ⟨-, -, hfield⟩ := phasesCheck_shape i t f hf
    simp [hfield]
  rw [hdup, hdur, hmc, hrs, hpp]
  simp

/-- C4 counterexample: a task requiring "welding" with no worker holding it
(neither exact token nor substring) yields TWO warning findings at that row
and field — one from the task validator's exact-token check, one from the
cross-reference substring check — not the single warning the claim states. -/
theorem c4_counterexample :
    (validateAll [] [⟨"W1", "n", "cooking", "[1]", 2, "g", 5⟩]
        [⟨"T1", "t", "c", 1, "welding", "", 1⟩]).countP
      (fun f => decide (f.row = 0 ∧ f.field = "RequiredSkills" ∧
        f.severity = Severity.warning)) = 2 := by decide

/-- C4 amended: for a task whose `RequiredSkills` is a single clean token
`s` held by no worker — neither as an exact trimmed lower-cased token of
any worker's `Skills` nor as a case-insensitive substring — `validateAll`
produces exactly TWO warning findings at that row and field: first
"No worker has required skill: s" from the task validator, then
"No worker available with skill: s" from the cross-reference check. -/
theorem c4_amended (cs : List Client) (ws : List Worker) (t : Task) (s : String)
    (hts : t.RequiredSkills = s) (hs0 : s ≠ "") (htr : jsTrim s = s)
    (hlo : jsToLower s = s) (hnc : jsSplit s ',' = [s])
    (hnoex : (workerSkillsUnion ws).contains s = false)
    (hnosub : ws.any (fun w => w.Skills ≠ "" && jsIncludes (jsToLower w.Skills) s) = false) :
    (validateAll cs ws [t]).filter
        (fun f => decide (f.field = "RequiredSkills") && decide (f.row = (0 : Int))) =
      [mkF .task "RequiredSkills" 0 ("No worker has required skill: " ++ s) .warning,
        mkF .task "RequiredSkills" 0 ("No worker available with skill: " ++ s) .warning] := by
  rw [validateAll_decomp]
  simp only [List.filter_append]
  have hC : (validateClients cs [t] []).filter
      (fun f => decide (f.field = "RequiredSkills") && decide (f.row = (0 : Int))) = [] := by
    rw [List.filter_eq_nil_iff]
    intro f hf
    obtain ⟨-, -, hfield⟩ := validateClients_mem cs [t] f hf
    rcases hfield with hh | hh | hh | hh <;> simp [hh]
  have hW : (validateWorkers ws []).filter
      (fun f => decide (f.field = "RequiredSkills") && decide (f.row = (0 : Int))) = [] := by
    rw [List.filter_eq_nil_iff]
    intro f hf
    obtain ⟨-, -, hfield⟩ := validateWorkers_mem ws f hf
    rcases hfield with hh | hh | hh | hh <;> simp [hh]
  have hSat : (satFindings ws [t]).filter
      (fun f => decide (f.field = "RequiredSkills") && decide (f.row = (0 : Int))) = [] := by
    rw [List.filter_eq_nil_iff]
    intro f hf
    obtain ⟨-, -, hfield, -⟩ := satFindings_shape ws [t] f hf
    simp [hfield]
  have hCirc : (circFindings cs).filter
      (fun f => decide (f.field = "RequiredSkills") && decide (f.row = (0 : Int))) = [] := by
    rw [List.filter_eq_nil_iff]
    intro f hf
    obtain ⟨-, -, hfield, -⟩ := circFindings_shape cs f hf
    simp [hfield]
  have hT : (validateTasks [t] ws []).filter
      (fun f => decide (f.field = "RequiredSkills") && decide (f.row = (0 : Int))) =
        [mkF .task "RequiredSkills" 0 ("No worker has required skill: " ++ s) .warning] := by
    rw [validateTasks, runRows_cons]
    simp only [runRows, List.append_nil]
    have hrow := taskRow_filter_reqskills (workerSkillsUnion ws) [] 0 t
    simp only [Nat.cast_zero] at hrow
    rw [hrow]
    have hnoex2 : s ∉ workerSkillsUnion ws := by simpa [List.elem_iff] using hnoex
    simp [reqSkillsCheck, hts, hnc, htr, hlo, hs0, hnoex2, mkF]
  have hSC : (skillCoverage ws [t]).filter
      (fun f => decide (f.field = "RequiredSkills") && decide (f.row = (0 : Int))) =
        [mkF .task "RequiredSkills" 0 ("No worker available with skill: " ++ s) .warning] := by
    have hval : skillCovRow ws 0 t =
        [mkF .task "RequiredSkills" 0 ("No worker available with skill: " ++ s) .warning] := by
      simp only [skillCovRow, hts, hnc, List.map_cons, List.map_nil, htr,
        List.flatMap_cons, List.flatMap_nil, List.append_nil, hlo]
      rw [if_pos hs0, if_pos hs0, hnosub]
      simp [mkF]
    simp only [skillCoverage, skillCoverageAux, List.append_nil, hval]
    simp [mkF]
  rw [hC, hW, hT, hSC, hSat, hCirc]
  simp

/-- C4 amended witness: the concrete "welding" scenario yields exactly the
two warnings in order. -/
theorem c4_amended_witness :
    (validateAll [] [⟨"W1", "n", "cooking", "[1]", 2, "g", 5⟩]
        [⟨"T1", "t", "c", 1, "welding", "", 1⟩]).filter
        (fun f => decide (f.field = "RequiredSkills") && decide (f.row = (0 : Int))) =
      [mkF .task "RequiredSkills" 0 ("No worker has required skill: " ++ "welding") .warning,
        mkF .task "RequiredSkills" 0
          ("No worker available with skill: " ++ "welding") .warning] :=
  c4_amended [] [⟨"W1", "n", "cooking", "[1]", 2, "g", 5⟩]
    ⟨"T1", "t", "c", 1, "welding", "", 1⟩ "welding"
    rfl (by decide) (by decide) (by decide) (by decide) (by decide) (by decide)

/-- C10: for a required-skill token that is not an exact member of the
worker skill union but is a case-insensitive substring of some worker's
`Skills` (e.g. "java" vs "javascript"), `validateAll` emits exactly one
warning — the task validator's exact-token warning — and the
cross-reference skill-coverage check emits none. -/
theorem c10_substring_skill (cs : List Client) (ws : List Worker) (t : Task) (s : String)
    (hts : t.RequiredSkills = s) (hs0 : s ≠ "") (htr : jsTrim s = s)
    (hlo : jsToLower s = s) (hnc : jsSplit s ',' = [s])
    (hnoex : (workerSkillsUnion ws).contains s = false)
    (hsub : ws.any (fun w => w.Skills ≠ "" && jsIncludes (jsToLower w.Skills) s) = true) :
    (validateAll cs ws [t]).filter
        (fun f => decide (f.field = "RequiredSkills") && decide (f.row = (0 : Int))) =
      [mkF .task "RequiredSkills" 0 ("No worker has required skill: " ++ s) .warning] := by
  rw [validateAll_decomp]
  simp only [List.filter_append]
  have hC : (validateClients cs [t] []).filter
      (fun f => decide (f.field = "RequiredSkills") && decide (f.row = (0 : Int))) = [] := by
    rw [List.filter_eq_nil_iff]
    intro f hf
    obtain ⟨-, -, hfield⟩ := validateClients_mem cs [t] f hf
    rcases hfield with hh | hh | hh | hh <;> simp [hh]
  have hW : (validateWorkers ws []).filter
      (fun f => decide (f.field = "RequiredSkills") && decide (f.row = (0 : Int))) = [] := by
    rw [List.filter_eq_nil_iff]
    intro f hf
    obtain ⟨-, -, hfield⟩ := validateWorkers_mem ws f hf
    rcases hfield with hh | hh | hh | hh <;> simp [hh]
  have hSat : (satFindings ws [t]).filter
      (fun f => decide (f.field = "RequiredSkills") && decide (f.row = (0 : Int))) = [] := by
    rw [List.filter_eq_nil_iff]
    intro f hf
    obtain ⟨-, -, hfield, -⟩ := satFindings_shape ws [t] f hf
    simp [hfield]
  have hCirc : (circFindings cs).filter
      (fun f => decide (f.field = "RequiredSkills") && decide (f.row = (0 : Int))) = [] := by
    rw [List.filter_eq_nil_iff]
    intro f hf
    obtain ⟨-, -, hfield, -⟩ := circFindings_shape cs f hf
    simp [hfield]
  have hT : (validateTasks [t] ws []).filter
      (fun f => decide (f.field = "RequiredSkills") && decide (f.row = (0 : Int))) =
        [mkF .task "RequiredSkills" 0 ("No worker has required skill: " ++ s) .warning] := by
    rw [validateTasks, runRows_cons]
    simp only [runRows, List.append_nil]
    have hrow := taskRow_filter_reqskills (workerSkillsUnion ws) [] 0 t
    simp only [Nat.cast_zero] at hrow
    rw [hrow]
    have hnoex2 : s ∉ workerSkillsUnion ws := by simpa [List.elem_iff] using hnoex
    simp [reqSkillsCheck, hts, hnc, htr, hlo, hs0, hnoex2, mkF]
  have hSC : (skillCoverage ws [t]).filter
      (fun f => decide (f.field = "RequiredSkills") && decide (f.row = (0 : Int))) = [] := by
    have hval : skillCovRow ws 0 t = [] := by
      simp only [skillCovRow, hts, hnc, List.map_cons, List.map_nil, htr,
        List.flatMap_cons, List.flatMap_nil, List.append_nil, hlo]
      rw [if_pos hs0, if_pos hs0, hsub]
      simp
    simp [skillCoverage, skillCoverageAux, hval]
  rw [hC, hW, hT, hSC, hSat, hCirc]
  simp

/-- C10 witness: required skill "java" with one worker listing
"javascript" yields exactly the per-task warning. -/
theorem c10_witness :
    (validateAll [] [⟨"W1", "n", "javascript", "[1]", 2, "g", 5⟩]
        [⟨"T1", "t", "c", 1, "java", "", 1⟩]).filter
        (fun f => decide (f.field = "RequiredSkills") && decide (f.row = (0 : Int))) =
      [mkF .task "RequiredSkills" 0 ("No worker has required skill: " ++ "java") .warning] :=
  c10_substring_skill [] [⟨"W1", "n", "javascript", "[1]", 2, "g", 5⟩]
    ⟨"T1", "t", "c", 1, "java", "", 1⟩ "java"
    rfl (by decide) (by decide) (by decide) (by decide) (by decide) (by decide)

/-! ## No-throw theorem (C8) -/

theorem attrCheckE_ok (i : Nat) (c : Client) : attrCheckE i c = .ok (attrCheck i c) := by
  unfold attrCheckE attrCheck jsonParseE tryCatchE
  split
  · cases h : jsonParse c.AttributesJSON <;> simp [h]
  · rfl

theorem clientRowE_ok (tids : List String) (seen : List String) (i : Nat) (c : Client) :
    clientRowE tids seen i c = .ok (clientRow tids seen i c) := by
  unfold clientRowE clientRow
  rw [attrCheckE_ok]

theorem slotsCheckE_ok (i : Nat) (w : Worker) : slotsCheckE i w = .ok (slotsCheck i w) := by
  unfold slotsCheckE slotsCheck jsonParseE tryCatchE
  split
  · cases h : jsonParse w.AvailableSlots with
    | none => simp [h]
    | some v => cases v <;> simp [h]
  · rfl

theorem workerRowE_ok (seen : List String) (i : Nat) (w : Worker) :
    workerRowE seen i w = .ok (workerRow seen i w) := by
  unfold workerRowE workerRow
  rw [slotsCheckE_ok]

theorem phasesCheckE_ok (i : Nat) (t : Task) : phasesCheckE i t = .ok (phasesCheck i t) := by
  unfold phasesCheckE phasesCheck jsonParseE tryCatchE
  split
  · dsimp only
    by_cases h1 : (jsStartsWith (jsTrim t.PreferredPhases) "["
        && jsEndsWith (jsTrim t.PreferredPhases) "]") = true
    · rw [if_pos h1, if_pos h1]
      by_cases h2 : strContains (jsTrim (jsSliceInner (jsTrim t.PreferredPhases))) '-' = true
      · rw [if_pos h2, if_pos h2]
      · rw [if_neg h2, if_neg h2]
        cases h : jsonParse (jsTrim t.PreferredPhases) with
        | none => simp [h]
        | some v => cases v <;> simp [h]
    · rw [if_neg h1, if_neg h1]
      by_cases h3 : (strContains (jsTrim t.PreferredPhases) '-'
          && !strContains (jsTrim t.PreferredPhases) '['
          && !strContains (jsTrim t.PreferredPhases) ']') = true
      · rw [if_pos h3, if_pos h3]
      · rw [if_neg h3, if_neg h3]
        by_cases h4 : strContains (jsTrim t.PreferredPhases) ',' = true
        · rw [if_pos h4, if_pos h4]
        · rw [if_neg h4, if_neg h4]
          by_cases h5 : isAllDigits (jsTrim t.PreferredPhases) = true
          · rw [if_pos h5, if_pos h5]
          · rw [if_neg h5, if_neg h5]
  · rfl

theorem taskRowE_ok (skills seen : List String) (i : Nat) (t : Task) :
    taskRowE skills seen i t = .ok (taskRow skills seen i t) := by
  unfold taskRowE taskRow
  rw [phasesCheckE_ok]

theorem runRowsE_ok {α : Type} (rowE : List String → Nat → α → Except String (List Finding))
    (row : List String → Nat → α → List Finding) (upd : α → List String → List String)
    (hrow : ∀ seen j x, rowE seen j x = .ok (row seen j x)) :
    ∀ (seen : List String) (i : Nat) (xs : List α) (errs : List Finding),
      runRowsE rowE upd seen i xs errs = .ok (runRows row upd seen i xs errs) := by
  intro seen i xs
  induction xs generalizing seen i with
  | nil => intro errs; rfl
  | cons x xs ih =>
    intro errs
    simp only [runRowsE, runRows, hrow]
    exact ih _ _ _

theorem foldlE_ok {β α : Type} (f : β → α → Except String β) (g : β → α → β)
    (h : ∀ b a, f b a = .ok (g b a)) :
    ∀ (l : List α) (b : β), foldlE f b l = .ok (l.foldl g b) := by
  intro l
  induction l with
  | nil => intro b; rfl
  | cons x xs ih =>
    intro b
    simp only [foldlE, List.foldl_cons, h]
    exact ih _

theorem capStepE_ok (m : List (Dec × Int)) (w : Worker) :
    capStepE m w = .ok (
      if w.AvailableSlots ≠ "" then
        match jsonParse w.AvailableSlots with
        | some (.arr slots) =>
          slots.foldl (fun m2 j =>
            match j with
            | .num d => if decPos d then amSet m2 d ((amGet m2 d).getD 0 + w.MaxLoadPerPhase) else m2
            | _ => m2) m
        | some _ => m
        | none => m
      else m) := by
  unfold capStepE jsonParseE tryCatchE
  split
  · cases h : jsonParse w.AvailableSlots with
    | none => simp [h]
    | some v => cases v <;> simp [h]
  · rfl

theorem demandStepE_ok (m : List (Dec × Int)) (t : Task) :
    demandStepE m t = .ok (
      if t.PreferredPhases ≠ "" && t.Duration > 0 then
        (satPhases t).foldl (fun m2 q => amSet m2 q ((amGet m2 q).getD 0 + t.Duration)) m
      else m) := by
  unfold demandStepE satPhasesE satPhases jsonParseE tryCatchE
  split
  · dsimp only
    by_cases h1 : strContains (jsTrim t.PreferredPhases) '-' = true
    · rw [if_pos h1, if_pos h1]
    · rw [if_neg h1, if_neg h1]
      by_cases h2 : (jsStartsWith (jsTrim t.PreferredPhases) "["
          && jsEndsWith (jsTrim t.PreferredPhases) "]") = true
      · rw [if_pos h2, if_pos h2]
        cases h : jsonParse (jsTrim t.PreferredPhases) with
        | none => simp [h]
        | some v => cases v <;> simp [h]
      · rw [if_neg h2, if_neg h2]
        by_cases h3 : strContains (jsTrim t.PreferredPhases) ',' = true
        · rw [if_pos h3, if_pos h3]
        · rw [if_neg h3, if_neg h3]
          by_cases h4 : isAllDigits (jsTrim t.PreferredPhases) = true
          · rw [if_pos h4, if_pos h4]
          · rw [if_neg h4, if_neg h4]
  · rfl

theorem satFindingsE_ok (ws : List Worker) (ts : List Task) :
    satFindingsE ws ts = .ok (satFindings ws ts) := by
  unfold satFindingsE
  rw [foldlE_ok _ _ capStepE_ok, foldlE_ok _ _ demandStepE_ok]
  exact rfl

/-- C8: `validateAll` terminates normally on every input and returns a list
of findings; the exception-transparent mirror — which throws exactly where
`JSON.parse` throws and installs the source's `catch` handlers — always
returns `ok` of the same list, so no malformed data value ever escapes as a
thrown error. -/
theorem c8_never_throws (cs : List Client) (ws : List Worker) (ts : List Task) :
    validateAllE cs ws ts = .ok (validateAll cs ws ts) := by
  unfold validateAllE
  rw [runRowsE_ok _ (clientRow (ts.map Task.TaskID)) _ (clientRowE_ok (ts.map Task.TaskID))]
  dsimp only
  rw [runRowsE_ok _ workerRow _ workerRowE_ok]
  dsimp only
  rw [runRowsE_ok _ (taskRow (workerSkillsUnion ws)) _ (taskRowE_ok (workerSkillsUnion ws))]
  dsimp only
  rw [satFindingsE_ok]
  exact rfl

end DataAlchemist
